import Mathlib

/-!
Verification development for the asciiStructure constraint solver
(src/constraint_solver.c, src/constraints.c).

The C code is embedded shallowly: the solver struct becomes a Lean
structure, the 200 by 200 character buffer becomes a total function
from integer row and column indices to characters (cells that the C
code never writes stay at the blank character), and every C function
that the claims touch is translated statement by statement.  The C
recursion of the two search strategies is modelled with an explicit
fuel parameter; running out of fuel returns failure, and all concrete
runs below are given ample fuel.
-/

set_option maxRecDepth 4000

/-- A named rectangular ASCII tile, mirroring struct Component.  The C
field ascii_tile is a fixed 20 by 20 character array initialised with
blanks; it is modelled as a 20 by 20 list of lists.  The fields
mobility_score, constraint_count and dependency_level are written by
calculate_mobility_scores before any read; they start at 0 here. -/
structure Component where
  name : String
  ascii_tile : List (List Char)
  width : Nat
  height : Nat
  placed_x : Int
  placed_y : Int
  is_placed : Bool
  group_id : Int
  mobility_score : Int
  constraint_count : Int
  dependency_level : Int
deriving DecidableEq, Repr

instance : Inhabited Component :=
  ⟨{ name := "", ascii_tile := [], width := 0, height := 0, placed_x := 0,
     placed_y := 0, is_placed := false, group_id := 0, mobility_score := 0,
     constraint_count := 0, dependency_level := 0 }⟩

/-- Reading one cell of the ASCII tile; out of range reads give the
blank character, matching the space-initialised C array. -/
def tileAt (c : Component) (row col : Nat) : Char :=
  (c.ascii_tile.getD row []).getD col ' '

/-- The only constraint kind of the repository, DSL_ADJACENT. -/
inductive DSLConstraintType where
  | adjacent
deriving DecidableEq, Repr

/-- struct DSLConstraint: a kind tag, two component names and a
direction character among n, s, e, w, a. -/
structure DSLConstraint where
  ctype : DSLConstraintType
  component_a : String
  component_b : String
  direction : Char
deriving DecidableEq, Repr

instance : Inhabited DSLConstraint :=
  ⟨{ ctype := .adjacent, component_a := "", component_b := "", direction := 'n' }⟩

/-- The conflict_state sub-record of struct LayoutSolver. -/
structure ConflictState where
  overlapping_components : List Nat
  target_component : Int
  conflict_resolved : Bool

/-- struct BacktrackState: one snapshot on the backtracking stack of
the recursive solver (save_solver_state, restore_solver_state). -/
structure BacktrackState where
  components : List Component
  grid : Int → Int → Char
  grid_width : Int
  grid_height : Int
  grid_min_x : Int
  grid_min_y : Int
  next_group_id : Int
  component_index : Int
  constraint_index : Int
  placement_option : Int

/-- struct LayoutSolver.  The grid buffer char[200][200] is the
function field grid, applied as grid row column (the C access
grid[gy][gx] is grid gy gx here); component_count and
constraint_count are the list lengths.  remaining_constraints stores
indices into the constraints list: the C array holds pointers into
solver->constraints, and pointer identity is index identity.
rand_index is the position in the C library rand() output stream,
which get_placement_options consumes via rand() % 2. -/
structure LayoutSolver where
  components : List Component
  constraints : List DSLConstraint
  grid : Int → Int → Char
  grid_width : Int
  grid_height : Int
  grid_min_x : Int
  grid_min_y : Int
  placement_attempts : List Nat
  total_iterations : Int
  next_group_id : Int
  solver_type : Nat
  remaining_constraints : List Nat
  backtrack_stack : List BacktrackState
  failed_positions : List (List (Int × Int))
  placement_order : List Nat
  dependency_graph : Nat → Nat → Bool
  conflict_state : ConflictState
  rand_index : Nat

/-- MAX_SOLVER_ITERATIONS from constraint_solver.h. -/
def MAX_SOLVER_ITERATIONS : Int := 10000

/-- init_solver: empty solver with a blank grid, origin (0,0) and the
default strategy SOLVER_RECURSIVE_TREE (solver_type 0). -/
def init_solver (w h : Int) : LayoutSolver :=
  { components := []
    constraints := []
    grid := fun _ _ => ' '
    grid_width := w
    grid_height := h
    grid_min_x := 0
    grid_min_y := 0
    placement_attempts := List.replicate 20 0
    total_iterations := 0
    next_group_id := 1
    solver_type := 0
    remaining_constraints := []
    backtrack_stack := []
    failed_positions := List.replicate 20 []
    placement_order := []
    dependency_graph := fun _ _ => false
    conflict_state := { overlapping_components := [], target_component := 0, conflict_resolved := false }
    rand_index := 0 }

/-- find_component: linear search, first matching name, as an index. -/
def find_component (s : LayoutSolver) (nm : String) : Option Nat :=
  s.components.findIdx? (fun c => c.name == nm)

/-- Accumulator of the manual ASCII parse loop in add_component. -/
structure ParseAcc where
  tile : List (List Char)
  row : Nat
  col : Nat
  current_line_len : Nat
  width : Nat

/-- Writing one character into the 20 by 20 tile. -/
def tileSet (t : List (List Char)) (row col : Nat) (ch : Char) : List (List Char) :=
  t.set row ((t.getD row []).set col ch)

/-- The character loop of add_component: while (*ptr && row < 20),
newline ends a line (updating the running width), other characters are
stored when col < 20 (longer lines are silently truncated). -/
def parseTileChars : List Char → ParseAcc → ParseAcc
  | [], acc => acc
  | ch :: rest, acc =>
    if acc.row ≥ 20 then acc
    else if ch = '\n' then
      parseTileChars rest
        { acc with
          width := if acc.current_line_len > acc.width then acc.current_line_len else acc.width
          row := acc.row + 1
          col := 0
          current_line_len := 0 }
    else if acc.col < 20 then
      parseTileChars rest
        { acc with
          tile := tileSet acc.tile acc.row acc.col ch
          col := acc.col + 1
          current_line_len := acc.current_line_len + 1 }
    else
      parseTileChars rest acc

/-- The 20 by 20 blank tile that add_component starts from. -/
def blankTile : List (List Char) := List.replicate 20 (List.replicate 20 ' ')

/-- add_component: silently returns when the component list reached
MAX_COMPONENTS (20); otherwise parses the ASCII data and appends a new
unplaced component with coordinates (-1,-1). -/
def add_component (s : LayoutSolver) (nm ascii_data : String) : LayoutSolver :=
  if s.components.length ≥ 20 then s
  else
    let acc := parseTileChars ascii_data.toList
      { tile := blankTile, row := 0, col := 0, current_line_len := 0, width := 0 }
    let acc :=
      if acc.current_line_len > 0 then
        { acc with
          width := if acc.current_line_len > acc.width then acc.current_line_len else acc.width
          row := acc.row + 1 }
      else acc
    let comp : Component :=
      { name := nm, ascii_tile := acc.tile, width := acc.width, height := acc.row
        placed_x := -1, placed_y := -1, is_placed := false, group_id := 0
        mobility_score := 0, constraint_count := 0, dependency_level := 0 }
    { s with components := s.components ++ [comp] }

/-- Conversion specifier %limit[^stop] of sscanf: consume up to limit
characters different from stop; the kept prefix and the rest. -/
def scanUntil (stop : Char) : Nat → List Char → List Char × List Char
  | _, [] => ([], [])
  | 0, cs => ([], cs)
  | n + 1, c :: cs =>
    if c = stop then ([], c :: cs)
    else
      let (t, r) := scanUntil stop n cs
      (c :: t, r)

/-- A blank in an sscanf format: skip any amount of whitespace. -/
def skipWs : List Char → List Char
  | c :: cs => if c.isWhitespace then skipWs cs else c :: cs
  | [] => []

/-- The outer parse of add_constraint, modelling
sscanf(line, three-percent-31-bracket-caret-lparen format): the type
name (nonempty, up to 31 characters, stopping before a left
parenthesis), a literal left parenthesis, then the nonempty parameter
text up to 255 characters stopping before a right parenthesis.  A
missing closing parenthesis does not matter: both conversions have
already succeeded, so sscanf returns 2 in that case as well. -/
def parse_type_params (line : String) : Option (String × String) :=
  let (ty, rest) := scanUntil '(' 31 line.toList
  if ty = [] then none
  else
    match rest with
    | '(' :: r2 =>
      let (ps, _) := scanUntil ')' 255 r2
      if ps = [] then none else some (String.mk ty, String.mk ps)
    | _ => none

/-- The inner parse of add_constraint over the parameter text, with
format two names separated by commas and a final direction character
(whitespace after each comma is skipped).  The C code ignores the
return value of this sscanf; on a partial match the unassigned
DSLConstraint fields keep indeterminate memory, which we model by the
defaults empty string and the question mark character (no claim
exercises that path). -/
def parse_adjacent_params (params : String) : String × String × Char :=
  let (a, r1) := scanUntil ',' 63 params.toList
  if a = [] then ("", "", '?')
  else
    match r1 with
    | ',' :: r2 =>
      let (b, r3) := scanUntil ',' 63 (skipWs r2)
      if b = [] then (String.mk a, "", '?')
      else
        match r3 with
        | ',' :: r4 =>
          match skipWs r4 with
          | c :: _ => (String.mk a, String.mk b, c)
          | [] => (String.mk a, String.mk b, '?')
        | _ => (String.mk a, String.mk b, '?')
    | _ => (String.mk a, "", '?')

/-- add_constraint: silently returns at MAX_CONSTRAINTS (50), on a
line that does not parse as TYPE(params), and on a type other than
ADJACENT; otherwise appends the parsed ADJACENT constraint. -/
def add_constraint (s : LayoutSolver) (line : String) : LayoutSolver :=
  if s.constraints.length ≥ 50 then s
  else
    match parse_type_params line with
    | none => s
    | some (ty, params) =>
      if ty = "ADJACENT" then
        let (a, b, d) := parse_adjacent_params params
        { s with constraints := s.constraints ++
            [{ ctype := .adjacent, component_a := a, component_b := b, direction := d }] }
      else s

/-- has_character_overlap: some non-blank cell of the first tile at
(x1,y1) coincides in world coordinates with a non-blank cell of the
second tile at (x2,y2). -/
def has_character_overlap (comp1 : Component) (x1 y1 : Int) (comp2 : Component) (x2 y2 : Int) : Bool :=
  (List.range comp1.height).any fun row1 =>
    (List.range comp1.width).any fun col1 =>
      tileAt comp1 row1 col1 ≠ ' ' &&
        ((List.range comp2.height).any fun row2 =>
          (List.range comp2.width).any fun col2 =>
            tileAt comp2 row2 col2 ≠ ' ' &&
              (x1 + (col1 : Int) == x2 + (col2 : Int)) && (y1 + (row1 : Int) == y2 + (row2 : Int)))

/-- expand_grid_for_component: widen the tracked bounds to cover the
component box at (x,y); when any bound changes, rebuild the buffer by
the translated copy loop of the C code (destination indices clipped to
the 200 by 200 array, everything else blank) and store the new
origin and dimensions. -/
def expand_grid_for_component (s : LayoutSolver) (ci : Nat) (x y : Int) : LayoutSolver :=
  match s.components.get? ci with
  | none => s
  | some comp =>
    let new_min_x := if x < s.grid_min_x then x else s.grid_min_x
    let new_min_y := if y < s.grid_min_y then y else s.grid_min_y
    let old_max_x := s.grid_min_x + s.grid_width - 1
    let old_max_y := s.grid_min_y + s.grid_height - 1
    let new_max_x := if x + (comp.width : Int) - 1 > old_max_x then x + (comp.width : Int) - 1 else old_max_x
    let new_max_y := if y + (comp.height : Int) - 1 > old_max_y then y + (comp.height : Int) - 1 else old_max_y
    let new_width := new_max_x - new_min_x + 1
    let new_height := new_max_y - new_min_y + 1
    if new_min_x ≠ s.grid_min_x ∨ new_min_y ≠ s.grid_min_y ∨
       new_width ≠ s.grid_width ∨ new_height ≠ s.grid_height then
      { s with
        grid := fun j i =>
          if 0 ≤ j ∧ j < 200 ∧ 0 ≤ i ∧ i < 200 ∧
             0 ≤ j + new_min_y - s.grid_min_y ∧ j + new_min_y - s.grid_min_y < s.grid_height ∧
             0 ≤ i + new_min_x - s.grid_min_x ∧ i + new_min_x - s.grid_min_x < s.grid_width then
            s.grid (j + new_min_y - s.grid_min_y) (i + new_min_x - s.grid_min_x)
          else ' '
        grid_min_x := new_min_x
        grid_min_y := new_min_y
        grid_width := new_width
        grid_height := new_height }
    else s

/-- place_component: expand the grid, mark the component placed at
(x,y), and paint its non-blank tile cells onto the buffer.  The C loop
indexes grid[y+dy][x+dx] directly, guarded only by the 200 by 200
array bounds; in particular it does not subtract the grid origin. -/
def place_component (s : LayoutSolver) (ci : Nat) (x y : Int) : LayoutSolver :=
  match s.components.get? ci with
  | none => s
  | some comp =>
    let s1 := expand_grid_for_component s ci x y
    { s1 with
      components := s1.components.set ci
        { comp with is_placed := true, placed_x := x, placed_y := y }
      grid := fun j i =>
        if 0 ≤ i ∧ i < 200 ∧ 0 ≤ j ∧ j < 200 ∧
           x ≤ i ∧ i < x + (comp.width : Int) ∧ y ≤ j ∧ j < y + (comp.height : Int) ∧
           tileAt comp (j - y).toNat (i - x).toNat ≠ ' ' then
          tileAt comp (j - y).toNat (i - x).toNat
        else s1.grid j i }

/-- remove_component: for a placed component, erase its non-blank tile
cells back to blanks (again at raw array indices guarded by the 200 by
200 bounds) and reset the placement fields to unplaced, (-1,-1). -/
def remove_component (s : LayoutSolver) (ci : Nat) : LayoutSolver :=
  match s.components.get? ci with
  | none => s
  | some comp =>
    if comp.is_placed then
      { s with
        grid := fun j i =>
          if 0 ≤ i ∧ i < 200 ∧ 0 ≤ j ∧ j < 200 ∧
             comp.placed_x ≤ i ∧ i < comp.placed_x + (comp.width : Int) ∧
             comp.placed_y ≤ j ∧ j < comp.placed_y + (comp.height : Int) ∧
             tileAt comp (j - comp.placed_y).toNat (i - comp.placed_x).toNat ≠ ' ' then ' '
          else s.grid j i
        components := s.components.set ci
          { comp with is_placed := false, placed_x := -1, placed_y := -1 } }
    else s

/-- is_placement_valid: expand the grid (a mutation that persists even
when the answer is negative), then test character overlap against every
other placed component.  Returns the answer together with the mutated
solver. -/
def is_placement_valid (s : LayoutSolver) (ci : Nat) (x y : Int) : Bool × LayoutSolver :=
  match s.components.get? ci with
  | none => (false, s)
  | some _ =>
    let s1 := expand_grid_for_component s ci x y
    let comp := s1.components.getD ci default
    let bad := (List.range s1.components.length).any fun i =>
      let other := s1.components.getD i default
      i ≠ ci && other.is_placed &&
        has_character_overlap comp x y other other.placed_x other.placed_y
    (!bad, s1)

/-- check_adjacent for an explicit direction: edge-flush touch in that
direction plus overlap along the perpendicular axis (component 1
relative to component 2). -/
def check_adjacent_dir (x1 y1 w1 h1 x2 y2 w2 h2 : Int) (dir : Char) : Bool :=
  if dir = 'n' then
    (y1 + h1 == y2) && (x1 < x2 + w2) && (x1 + w1 > x2)
  else if dir = 's' then
    (y1 == y2 + h2) && (x1 < x2 + w2) && (x1 + w1 > x2)
  else if dir = 'e' then
    (x1 == x2 + w2) && (y1 < y2 + h2) && (y1 + h1 > y2)
  else if dir = 'w' then
    (x1 + w1 == x2) && (y1 < y2 + h2) && (y1 + h1 > y2)
  else false

/-- check_adjacent: the directed check, where direction a tries the
four explicit directions (the C code recurses into itself; the
recursion depth is one, so it is unfolded here). -/
def check_adjacent (x1 y1 w1 h1 x2 y2 w2 h2 : Int) (dir : Char) : Bool :=
  if dir = 'a' then
    check_adjacent_dir x1 y1 w1 h1 x2 y2 w2 h2 'n' ||
    check_adjacent_dir x1 y1 w1 h1 x2 y2 w2 h2 's' ||
    check_adjacent_dir x1 y1 w1 h1 x2 y2 w2 h2 'e' ||
    check_adjacent_dir x1 y1 w1 h1 x2 y2 w2 h2 'w'
  else check_adjacent_dir x1 y1 w1 h1 x2 y2 w2 h2 dir

/-- check_constraint_satisfied: both components must be present and
placed; the first component is tested at (test_x, test_y) and matched
against its role in the constraint by name. -/
def check_constraint_satisfied (s : LayoutSolver) (c : DSLConstraint)
    (comp1? comp2? : Option Nat) (test_x test_y : Int) : Bool :=
  match comp1?, comp2? with
  | some i1, some i2 =>
    let comp1 := s.components.getD i1 default
    let comp2 := s.components.getD i2 default
    if !comp1.is_placed || !comp2.is_placed then false
    else
      let comp1_is_a := c.component_a == comp1.name
      match c.ctype with
      | .adjacent =>
        if comp1_is_a then
          check_adjacent test_x test_y comp1.width comp1.height
            comp2.placed_x comp2.placed_y comp2.width comp2.height c.direction
        else
          check_adjacent comp2.placed_x comp2.placed_y comp2.width comp2.height
            test_x test_y comp1.width comp1.height c.direction
  | _, _ => false

/-- The component lookup loop of adjacent_validate_constraint keeps
overwriting its pointer, so the last matching component wins (unlike
find_component, which returns the first). -/
def lastIdxNamed (comps : List Component) (nm : String) : Option Nat :=
  (List.range comps.length).foldl
    (fun acc i => if (comps.getD i default).name == nm then some i else acc) none

/-- adjacent_validate_constraint: the ground-truth adjacency check.
Both components must be found and placed; for each admitted direction
both orientations are accepted (A touching B or B touching A). -/
def adjacent_validate_constraint (s : LayoutSolver) (c : DSLConstraint) : Bool :=
  match lastIdxNamed s.components c.component_a, lastIdxNamed s.components c.component_b with
  | some ia, some ib =>
    let ca := s.components.getD ia default
    let cb := s.components.getD ib default
    if !ca.is_placed || !cb.is_placed then false
    else
      let a_x1 := ca.placed_x
      let a_y1 := ca.placed_y
      let a_x2 := ca.placed_x + (ca.width : Int)
      let a_y2 := ca.placed_y + (ca.height : Int)
      let b_x1 := cb.placed_x
      let b_y1 := cb.placed_y
      let b_x2 := cb.placed_x + (cb.width : Int)
      let b_y2 := cb.placed_y + (cb.height : Int)
      let dir := c.direction
      ((dir == 'n' || dir == 'a') &&
        ((a_y2 == b_y1 && a_x1 < b_x2 && a_x2 > b_x1) ||
         (b_y2 == a_y1 && b_x1 < a_x2 && b_x2 > a_x1))) ||
      ((dir == 's' || dir == 'a') &&
        ((a_y1 == b_y2 && a_x1 < b_x2 && a_x2 > b_x1) ||
         (b_y1 == a_y2 && b_x1 < a_x2 && b_x2 > a_x1))) ||
      ((dir == 'e' || dir == 'a') &&
        ((a_x1 == b_x2 && a_y1 < b_y2 && a_y2 > b_y1) ||
         (b_x1 == a_x2 && b_y1 < a_y2 && b_y2 > a_y1))) ||
      ((dir == 'w' || dir == 'a') &&
        ((a_x2 == b_x1 && a_y1 < b_y2 && a_y2 > b_y1) ||
         (b_x2 == a_x1 && b_y1 < a_y2 && b_y2 > a_y1)))
  | _, _ => false

/-- adjacent_calculate_score from constraints.c: the banded preference
score.  Edge alignment gives 100, exact centering (same parity) 90,
other overlapping placements 50 + 2*overlap + (10 - distance to the
nearer edge) capped at 89, and disjoint placements 49 - gap clamped
below at 1.  Direction n or s scores the horizontal axis, e or w the
vertical axis, and any other direction (notably a) leaves the score
at 0. -/
def adjacent_calculate_score (comp : Component) (x y : Int)
    (c : DSLConstraint) (placed_comp : Component) : Int :=
  let score : Int := 0
  let score :=
    if c.direction = 'n' ∨ c.direction = 's' then
      let comp_left := x
      let comp_right := x + (comp.width : Int)
      let ref_left := placed_comp.placed_x
      let ref_right := placed_comp.placed_x + (placed_comp.width : Int)
      let s1 : Int :=
        if comp_left = ref_left then 100
        else if comp_right = ref_right then 100
        else if (comp.width : Int) % 2 = (placed_comp.width : Int) % 2 then
          (if comp_left + (comp.width : Int) / 2 = ref_left + (placed_comp.width : Int) / 2
           then 90 else 0)
        else 0
      if s1 = 0 then
        let overlap_start := if comp_left > ref_left then comp_left else ref_left
        let overlap_end := if comp_right < ref_right then comp_right else ref_right
        let overlap := if overlap_end > overlap_start then overlap_end - overlap_start else 0
        if overlap > 0 then
          let dist_from_left := |comp_left - ref_left|
          let dist_from_right := |comp_right - ref_right|
          let min_edge_distance :=
            if dist_from_left < dist_from_right then dist_from_left else dist_from_right
          let sc := 50 + overlap * 2 + (10 - min_edge_distance)
          if sc > 89 then 89 else sc
        else
          let gap := if comp_left > ref_right then comp_left - ref_right else ref_left - comp_right
          let sc := 49 - gap
          if sc < 1 then 1 else sc
      else s1
    else score
  if c.direction = 'e' ∨ c.direction = 'w' then
    let comp_top := y
    let comp_bottom := y + (comp.height : Int)
    let ref_top := placed_comp.placed_y
    let ref_bottom := placed_comp.placed_y + (placed_comp.height : Int)
    let s1 : Int :=
      if comp_top = ref_top then 100
      else if comp_bottom = ref_bottom then 100
      else if (comp.height : Int) % 2 = (placed_comp.height : Int) % 2 then
        (if comp_top + (comp.height : Int) / 2 = ref_top + (placed_comp.height : Int) / 2
         then 90 else 0)
      else 0
    if s1 = 0 then
      let overlap_start := if comp_top > ref_top then comp_top else ref_top
      let overlap_end := if comp_bottom < ref_bottom then comp_bottom else ref_bottom
      let overlap := if overlap_end > overlap_start then overlap_end - overlap_start else 0
      if overlap > 0 then
        let dist_from_top := |comp_top - ref_top|
        let dist_from_bottom := |comp_bottom - ref_bottom|
        let min_edge_distance :=
          if dist_from_top < dist_from_bottom then dist_from_top else dist_from_bottom
        let sc := 50 + overlap * 2 + (10 - min_edge_distance)
        if sc > 89 then 89 else sc
      else
        let gap := if comp_top > ref_bottom then comp_top - ref_bottom else ref_top - comp_bottom
        let sc := 49 - gap
        if sc < 1 then 1 else sc
    else s1
  else score

/-- count_constraint_degree: number of constraints naming the
component on either side. -/
def count_constraint_degree (s : LayoutSolver) (ci : Nat) : Nat :=
  let nm := (s.components.getD ci default).name
  (s.constraints.filter (fun c => c.component_a == nm || c.component_b == nm)).length

/-- One scan of find_most_constrained_unplaced: the first unplaced
component of strictly maximal constraint degree, optionally restricted
to components with zero recorded placement attempts. -/
def best_unplaced_by_degree (s : LayoutSolver) (onlyFresh : Bool) : Option Nat :=
  ((List.range s.components.length).foldl
    (fun (acc : Option Nat × Int) i =>
      let comp := s.components.getD i default
      if !comp.is_placed && (!onlyFresh || s.placement_attempts.getD i 0 == 0) then
        let deg : Int := count_constraint_degree s i
        if deg > acc.2 then (some i, deg) else acc
      else acc)
    (none, -1)).1

/-- find_most_constrained_unplaced: first pass over components with no
previous placement attempts, second pass over all unplaced ones. -/
def find_most_constrained_unplaced (s : LayoutSolver) : Option Nat :=
  match best_unplaced_by_degree s true with
  | some i => some i
  | none => best_unplaced_by_degree s false

/-- calculate_preference_score from constraint_solver.c, the scoring
the tree solver actually uses: +10 for each aligned edge and +15 when
the centers differ by at most one cell. -/
def calculate_preference_score (s : LayoutSolver) (ci : Nat) (c : DSLConstraint) (x y : Int) : Int :=
  let comp := s.components.getD ci default
  let ref? := if c.component_a == comp.name then find_component s c.component_b
              else find_component s c.component_a
  match ref? with
  | none => 0
  | some ri =>
    let ref := s.components.getD ri default
    if !ref.is_placed then 0
    else
      let score : Int := 0
      let score :=
        if c.direction = 'n' ∨ c.direction = 's' then
          let score := if x = ref.placed_x then score + 10 else score
          let score := if x + (comp.width : Int) = ref.placed_x + (ref.width : Int) then score + 10 else score
          let comp_center := x + (comp.width : Int) / 2
          let ref_center := ref.placed_x + (ref.width : Int) / 2
          if |comp_center - ref_center| ≤ 1 then score + 15 else score
        else score
      if c.direction = 'e' ∨ c.direction = 'w' then
        let score := if y = ref.placed_y then score + 10 else score
        let score := if y + (comp.height : Int) = ref.placed_y + (ref.height : Int) then score + 10 else score
        let comp_center := y + (comp.height : Int) / 2
        let ref_center := ref.placed_y + (ref.height : Int) / 2
        if |comp_center - ref_center| ≤ 1 then score + 15 else score
      else score

/-- detect_placement_conflicts_detailed: the indices of the placed
components whose characters overlap the component placed at (x,y),
capped at MAX_COMPONENTS entries. -/
def detect_placement_conflicts_detailed (s : LayoutSolver) (ci : Nat) (x y : Int) : List Nat :=
  (List.range s.components.length).foldl
    (fun acc i =>
      let other := s.components.getD i default
      if i ≠ ci ∧ other.is_placed ∧
          has_character_overlap (s.components.getD ci default) x y other other.placed_x other.placed_y ∧
          acc.length < 20
      then acc ++ [i] else acc) []

/-- One placement option of the tree solver, struct TreePlacementOption
(the conflict depths are never filled in by the C code and are
omitted). -/
structure TreePlacementOption where
  x : Int
  y : Int
  has_conflict : Bool
  conflicts : List Nat
  preference_score : Int
deriving DecidableEq, Repr

/-- Building one option: position, preference score and conflict
report, as each generation loop iteration does. -/
def mkTreeOption (s : LayoutSolver) (c : DSLConstraint) (uc : Nat) (tx ty : Int) : TreePlacementOption :=
  let confl := detect_placement_conflicts_detailed s uc tx ty
  { x := tx, y := ty, has_conflict := !confl.isEmpty, conflicts := confl
    preference_score := calculate_preference_score s uc c tx ty }

/-- The placed-reference resolution at the top of
generate_placement_options_for_constraint: component a if it is placed
and distinct from the unplaced one, else component b likewise. -/
def placed_ref_of (s : LayoutSolver) (c : DSLConstraint) (uc : Nat) : Option Nat :=
  let ok : Option Nat → Bool := fun o =>
    match o with
    | some i => (s.components.getD i default).is_placed && (i != uc)
    | none => false
  let ia := find_component s c.component_a
  let ib := find_component s c.component_b
  if ok ia then ia else if ok ib then ib else none

/-- generate_placement_options_for_constraint: for each admitted
direction, every offset giving at least one cell of bounding-box
overlap along the shared axis, the unplaced tile flush against the
respective side of the placed tile.  Each loop breaks once the running
option count reaches 200, so the result is the first 200 entries of
the concatenated direction lists. -/
def generate_placement_options_for_constraint (s : LayoutSolver) (c : DSLConstraint) (uc : Nat) :
    List TreePlacementOption :=
  match placed_ref_of s c uc with
  | none => []
  | some pi =>
    let pc := s.components.getD pi default
    let comp := s.components.getD uc default
    let base_x := pc.placed_x
    let base_y := pc.placed_y
    let north :=
      if c.direction = 'n' ∨ c.direction = 'a' then
        (List.range (comp.width + pc.width - 1)).map fun k =>
          mkTreeOption s c uc (base_x + (-(comp.width : Int) + 1 + k)) (base_y - (comp.height : Int))
      else []
    let south :=
      if c.direction = 's' ∨ c.direction = 'a' then
        (List.range (comp.width + pc.width - 1)).map fun k =>
          mkTreeOption s c uc (base_x + (-(comp.width : Int) + 1 + k)) (base_y + (pc.height : Int))
      else []
    let east :=
      if c.direction = 'e' ∨ c.direction = 'a' then
        (List.range (comp.height + pc.height - 1)).map fun k =>
          mkTreeOption s c uc (base_x + (pc.width : Int)) (base_y + (-(comp.height : Int) + 1 + k))
      else []
    let west :=
      if c.direction = 'w' ∨ c.direction = 'a' then
        (List.range (comp.height + pc.height - 1)).map fun k =>
          mkTreeOption s c uc (base_x - (comp.width : Int)) (base_y + (-(comp.height : Int) + 1 + k))
      else []
    (north ++ south ++ east ++ west).take 200

/-- One conditional adjacent swap of the bubble sort in
order_placement_options: conflicting before conflict-free, or equal
conflict status with a lower preference score first, swaps. -/
def opoSwapAt (l : List TreePlacementOption) (j : Nat) : List TreePlacementOption :=
  match l.get? j, l.get? (j + 1) with
  | some a, some b =>
    if a.has_conflict && !b.has_conflict then (l.set j b).set (j + 1) a
    else if a.has_conflict == b.has_conflict && a.preference_score < b.preference_score then
      (l.set j b).set (j + 1) a
    else l
  | _, _ => l

/-- order_placement_options: the literal double loop of the C bubble
sort (outer i up to n-1, inner j up to n-i-1). -/
def order_placement_options (l : List TreePlacementOption) : List TreePlacementOption :=
  (List.range (l.length - 1)).foldl
    (fun acc i => (List.range (l.length - 1 - i)).foldl opoSwapAt acc) l

/-- Whether exactly one endpoint of the constraint is placed (a
missing component counts as unplaced). -/
def exactly_one_placed (s : LayoutSolver) (c : DSLConstraint) : Bool :=
  let pl : Option Nat → Bool := fun o =>
    match o with
    | some i => (s.components.getD i default).is_placed
    | none => false
  let a := pl (find_component s c.component_a)
  let b := pl (find_component s c.component_b)
  (a && !b) || (!a && b)

/-- get_next_constraint_involving_placed: the first constraint in the
remaining queue with exactly one placed endpoint. -/
def get_next_constraint_involving_placed (s : LayoutSolver) : Option Nat :=
  s.remaining_constraints.find? fun k => exactly_one_placed s (s.constraints.getD k default)

/-- Removing the first occurrence of a constraint index from the
remaining queue (the C loop shifts the array left from the first
pointer match). -/
def remove_remaining_constraint (s : LayoutSolver) (k : Nat) : LayoutSolver :=
  { s with remaining_constraints := s.remaining_constraints.erase k }

/-- The unplaced-endpoint resolution in advance_to_next_constraint:
component a if present and unplaced, else component b likewise. -/
def unplaced_endpoint_of (s : LayoutSolver) (c : DSLConstraint) : Option Nat :=
  let un : Option Nat → Bool := fun o =>
    match o with
    | some i => !(s.components.getD i default).is_placed
    | none => false
  let ia := find_component s c.component_a
  let ib := find_component s c.component_b
  if un ia then ia else if un ib then ib else none

/-- tree_place_component: validity check (whose grid expansion
persists either way), then an actual placement on success. -/
def tree_place_component (s : LayoutSolver) (ci : Nat) (x y : Int) : Bool × LayoutSolver :=
  match is_placement_valid s ci x y with
  | (ok, s1) => if ok then (true, place_component s1 ci x y) else (false, s1)

/-- The three mutually recursive control states of the tree solver
constraint loop: processing the next constraint
(advance_to_next_constraint), one placement trial (the body of the
option loop), and the remaining option list of that loop.  The C
recursion is defunctionalised this way so that the single recursion is
structural in the fuel and therefore computes by kernel reduction. -/
inductive TreeCall where
  | advance (s : LayoutSolver)
  | trial (s : LayoutSolver) (k uc : Nat) (o : TreePlacementOption)
  | opts (s : LayoutSolver) (k uc : Nat) (os : List TreePlacementOption)

/-- The solver state carried by a control state. -/
def TreeCall.state : TreeCall → LayoutSolver
  | .advance s => s
  | .trial s _ _ _ => s
  | .opts s _ _ _ => s

/-- The validation call of the both-endpoints-resolved path of
advance_to_next_constraint: check_constraint_satisfied on the two
looked-up endpoints, tested at the position of endpoint a (the C code
reads comp_a->placed_x for the call arguments; a missing endpoint
would be a null dereference there and is modelled by the argument
default 0, with the check itself failing on a missing component). -/
def advance_validate (s : LayoutSolver) (k : Nat) : Bool :=
  let c := s.constraints.getD k default
  let ia := find_component s c.component_a
  let ib := find_component s c.component_b
  let ax := match ia with | some i => (s.components.getD i default).placed_x | none => 0
  let ay := match ia with | some i => (s.components.getD i default).placed_y | none => 0
  check_constraint_satisfied s c ia ib ax ay

/-- The tree solver recursion (advance_to_next_constraint together
with its option loop), fuel-indexed; out of fuel counts as failure and
every concrete run below receives ample fuel.

advance: no frontier constraint means immediate success.  A frontier
constraint without an unplaced endpoint is validated and, when
satisfied, dropped from the queue (the C code would dereference a null
pointer when an endpoint names a missing component; that is modelled
as a failed check).  Otherwise the placement options are generated,
ordered, and tried in order.

trial: place via tree_place_component (keeping the expanded grid when
the placement is invalid), drop the constraint from the queue, recurse
into advance; on recursion failure erase the component again, which is
the entire rollback the code performs.

opts: try each ordered option in turn, propagating the first success
and otherwise continuing from the rolled-back state. -/
def tree_run : Nat → TreeCall → Bool × LayoutSolver
  | 0, c => (false, c.state)
  | f + 1, .advance s =>
    (match get_next_constraint_involving_placed s with
    | none => (true, s)
    | some k =>
      let c := s.constraints.getD k default
      match unplaced_endpoint_of s c with
      | none =>
        if advance_validate s k then
          tree_run f (.advance (remove_remaining_constraint s k))
        else (false, s)
      | some uc =>
        let opts := generate_placement_options_for_constraint s c uc
        if opts.length = 0 then (false, s)
        else tree_run f (.opts s k uc (order_placement_options opts)))
  | f + 1, .trial s k uc o =>
    (match tree_place_component s uc o.x o.y with
    | (false, s1) => (false, s1)
    | (true, s1) =>
      let s2 := remove_remaining_constraint s1 k
      match tree_run f (.advance s2) with
      | (true, s3) => (true, s3)
      | (false, s3) => (false, remove_component s3 uc))
  | _ + 1, .opts s _ _ [] => (false, s)
  | f + 1, .opts s k uc (o :: rest) =>
    (match tree_run f (.trial s k uc o) with
    | (true, s') => (true, s')
    | (false, s') => tree_run f (.opts s' k uc rest))

/-- advance_to_next_constraint as a function. -/
def advance_to_next_constraint (f : Nat) (s : LayoutSolver) : Bool × LayoutSolver :=
  tree_run f (.advance s)

/-- One trial of the option loop of advance_to_next_constraint. -/
def tree_trial_step (f : Nat) (s : LayoutSolver) (k uc : Nat) (o : TreePlacementOption) :
    Bool × LayoutSolver :=
  tree_run f (.trial s k uc o)

/-- The option loop of advance_to_next_constraint. -/
def tree_try_options (f : Nat) (s : LayoutSolver) (k uc : Nat)
    (os : List TreePlacementOption) : Bool × LayoutSolver :=
  tree_run f (.opts s k uc os)

/-- init_tree_solver: put every constraint (by index) into the
remaining queue. -/
def init_tree_solver (s : LayoutSolver) : LayoutSolver :=
  { s with remaining_constraints := List.range s.constraints.length }

/-- solve_tree_constraint: place the most constrained component at the
fixed root anchor (50,50), then process constraints. -/
def solve_tree_constraint (f : Nat) (s : LayoutSolver) : Bool × LayoutSolver :=
  let s := init_tree_solver s
  match find_most_constrained_unplaced s with
  | none => (false, s)
  | some root =>
    let s := place_component s root 50 50
    advance_to_next_constraint f s

/-- has_horizontal_overlap: the spans [x1, x1+w1) and [x2, x2+w2)
intersect. -/
def has_horizontal_overlap (x1 w1 x2 w2 : Int) : Bool :=
  !(decide (x1 + w1 ≤ x2) || decide (x2 + w2 ≤ x1))

/-- has_vertical_overlap: the spans [y1, y1+h1) and [y2, y2+h2)
intersect. -/
def has_vertical_overlap (y1 h1 y2 h2 : Int) : Bool :=
  !(decide (y1 + h1 ≤ y2) || decide (y2 + h2 ≤ y1))

/-- has_overlap: some non-blank tile cell of the component at (x,y)
falls on a non-blank grid cell; cells outside the tracked bounds count
as free (the grid will be expanded).  This read subtracts the grid
origin from the world coordinate. -/
def has_overlap (s : LayoutSolver) (ci : Nat) (x y : Int) : Bool :=
  let comp := s.components.getD ci default
  (List.range comp.height).any fun row =>
    (List.range comp.width).any fun col =>
      tileAt comp row col ≠ ' ' &&
        (let gx := x + (col : Int)
         let gy := y + (row : Int)
         if gx < s.grid_min_x ∨ gy < s.grid_min_y ∨
            gx ≥ s.grid_min_x + s.grid_width ∨ gy ≥ s.grid_min_y + s.grid_height then false
         else s.grid (gy - s.grid_min_y) (gx - s.grid_min_x) ≠ ' ')

/-- save_solver_state: push a snapshot of components, grid and bounds;
a no-op once the stack depth reaches MAX_BACKTRACK_DEPTH - 1. -/
def save_solver_state (s : LayoutSolver) (component_index constraint_index placement_option : Int) :
    LayoutSolver :=
  if s.backtrack_stack.length ≥ 49 then s
  else
    { s with backtrack_stack :=
        { components := s.components, grid := s.grid, grid_width := s.grid_width
          grid_height := s.grid_height, grid_min_x := s.grid_min_x, grid_min_y := s.grid_min_y
          next_group_id := s.next_group_id, component_index := component_index
          constraint_index := constraint_index, placement_option := placement_option } ::
        s.backtrack_stack }

/-- restore_solver_state: pop the top snapshot back into the solver
(a no-op on an empty stack).  The failed-position memory and the
iteration counter are deliberately not part of the snapshot. -/
def restore_solver_state (s : LayoutSolver) : LayoutSolver :=
  match s.backtrack_stack with
  | [] => s
  | st :: rest =>
    { s with
      components := st.components
      grid := st.grid
      grid_width := st.grid_width
      grid_height := st.grid_height
      grid_min_x := st.grid_min_x
      grid_min_y := st.grid_min_y
      next_group_id := st.next_group_id
      backtrack_stack := rest }

/-- record_failed_position: remember a failed (x,y) for a component,
capped at 200 entries, without duplicates. -/
def record_failed_position (s : LayoutSolver) (ci : Nat) (x y : Int) : LayoutSolver :=
  if ci ≥ 20 then s
  else
    let lst := s.failed_positions.getD ci []
    if lst.length ≥ 200 then s
    else if (x, y) ∈ lst then s
    else { s with failed_positions := s.failed_positions.set ci (lst ++ [(x, y)]) }

/-- is_position_failed: membership in the recorded failures. -/
def is_position_failed (s : LayoutSolver) (ci : Nat) (x y : Int) : Bool :=
  if ci ≥ 20 then false else (x, y) ∈ s.failed_positions.getD ci []

/-- analyze_constraint_dependencies: the bidirectional adjacency
matrix of the constraint graph. -/
def analyze_constraint_dependencies (s : LayoutSolver) : LayoutSolver :=
  let g := s.constraints.foldl
    (fun (g : Nat → Nat → Bool) c =>
      match find_component s c.component_a, find_component s c.component_b with
      | some i1, some i2 =>
        fun a b => if (a = i1 ∧ b = i2) ∨ (a = i2 ∧ b = i1) then true else g a b
      | _, _ => g)
    (fun _ _ => false)
  { s with dependency_graph := g }

/-- calculate_mobility_scores: constraint_count is the number of
constraints naming the component, mobility_score adds the number of
dependency-graph neighbours. -/
def calculate_mobility_scores (s : LayoutSolver) : LayoutSolver :=
  { s with components := (List.range s.components.length).map fun i =>
      let comp := s.components.getD i default
      let cc := (s.constraints.filter
        (fun c => c.component_a == comp.name || c.component_b == comp.name)).length
      let conn := ((List.range s.components.length).filter (fun j => s.dependency_graph i j)).length
      { comp with constraint_count := cc, mobility_score := (cc : Int) + conn } }

/-- One conditional swap of determine_placement_order: entries i and j
of the order are swapped when the earlier one has the strictly smaller
mobility score. -/
def dpoSwap (s : LayoutSolver) (ord : List Nat) (i j : Nat) : List Nat :=
  let a := ord.getD i 0
  let b := ord.getD j 0
  if (s.components.getD a default).mobility_score < (s.components.getD b default).mobility_score then
    (ord.set i b).set j a
  else ord

/-- determine_placement_order: selection-style double loop sorting the
component indices by descending mobility score (ties keep the input
order). -/
def determine_placement_order (s : LayoutSolver) : LayoutSolver :=
  let n := s.components.length
  let ord := (List.range (n - 1)).foldl
    (fun ord i => ((List.range n).drop (i + 1)).foldl (fun ord j => dpoSwap s ord i j) ord)
    (List.range n)
  { s with placement_order := ord }

/-- get_next_component_intelligent: first unplaced component in
placement order. -/
def get_next_component_intelligent (s : LayoutSolver) : Option Nat :=
  s.placement_order.find? fun idx => !(s.components.getD idx default).is_placed

/-- detect_placement_conflicts: record in conflict_state the placed
components whose bounding boxes and characters overlap the proposed
placement; returns the number found. -/
def detect_placement_conflicts (s : LayoutSolver) (ci : Nat) (x y : Int) : Nat × LayoutSolver :=
  let target := s.components.getD ci default
  let over := (List.range s.components.length).filter fun i =>
    let ex := s.components.getD i default
    i ≠ ci ∧ ex.is_placed ∧
      has_horizontal_overlap x target.width ex.placed_x ex.width ∧
      has_vertical_overlap y target.height ex.placed_y ex.height ∧
      has_character_overlap target x y ex ex.placed_x ex.placed_y
  (over.length,
   { s with conflict_state :=
      { overlapping_components := over, target_component := (ci : Int), conflict_resolved := false } })

/-- The dy and dx ranges of try_relocate_component: -10 to 10 in steps
of 2. -/
def stepRange : List Int := (List.range 11).map fun a => -10 + 2 * (a : Int)

/-- try_relocate_component: try moving the component to offsets of its
current position (dy outer, dx inner, skipping the origin); the first
offset with no character overlap against any other placed component
wins and the component stays there; otherwise it is restored.  Only
the placement fields move, the grid buffer is not rewritten. -/
def try_relocate_component (s : LayoutSolver) (comp_index : Nat) (_target : Nat) :
    Bool × LayoutSolver :=
  let comp := s.components.getD comp_index default
  let deltas := stepRange.foldr (fun dy acc =>
    (stepRange.map (fun dx => (dx, dy))) ++ acc) []
  let found := deltas.find? fun d =>
    if d.1 = 0 ∧ d.2 = 0 then false
    else
      let nx := comp.placed_x + d.1
      let ny := comp.placed_y + d.2
      !((List.range s.components.length).any fun i =>
        let other := s.components.getD i default
        i ≠ comp_index && other.is_placed &&
          has_character_overlap comp nx ny other other.placed_x other.placed_y)
  match found with
  | some d =>
    (true,
     { s with
       components := (s.components.set comp_index
         { comp with placed_x := comp.placed_x + d.1, placed_y := comp.placed_y + d.2,
                     is_placed := true }) })
  | none => (false, s)

/-- The relocation loop of attempt_conflict_resolution. -/
def acr_loop (s : LayoutSolver) (ci : Nat) : List Nat → Bool × LayoutSolver
  | [] => (false, s)
  | idx :: rest =>
    match try_relocate_component s idx ci with
    | (true, s') => (true, s')
    | (false, s') => acr_loop s' ci rest

/-- attempt_conflict_resolution: success without conflicts, otherwise
relocate the first overlapping component that will move. -/
def attempt_conflict_resolution (s : LayoutSolver) (ci : Nat) (_x _y : Int) : Bool × LayoutSolver :=
  if s.conflict_state.overlapping_components.length = 0 then (true, s)
  else acr_loop s ci s.conflict_state.overlapping_components

/-- struct SlideMove. -/
structure SlideMove where
  component_index : Nat
  direction : Char
  distance : Int
  new_x : Int
  new_y : Int
deriving DecidableEq, Repr

/-- struct SlideChain (the feasibility flags are never read). -/
structure SlideChain where
  moves : List SlideMove
  total_displacement : Int
  target_x : Int
  target_y : Int
deriving DecidableEq, Repr

/-- find_directional_slide_chain: always succeeds, producing a single
move pushing the component far enough to clear the stored target
position (distance clamped to MAX_SLIDE_DISTANCE), with a fallback
distance when the target is unknown or sits on a zero coordinate. -/
def find_directional_slide_chain (s : LayoutSolver) (start_comp_idx : Nat) (push_dir : Char)
    (tx ty : Int) : SlideChain :=
  let start_comp := s.components.getD start_comp_idx default
  let target? : Option Component :=
    if 0 ≤ s.conflict_state.target_component ∧
       s.conflict_state.target_component < (s.components.length : Int) then
      some (s.components.getD s.conflict_state.target_component.toNat default)
    else none
  let fallback : Int :=
    if push_dir = 'n' ∨ push_dir = 's' then (start_comp.height : Int) + 3
    else (start_comp.width : Int) + 3
  let slide_distance :=
    match target? with
    | some target_comp =>
      if tx ≠ 0 ∧ ty ≠ 0 then
        let d :=
          if push_dir = 'n' then (start_comp.placed_y + (start_comp.height : Int)) - ty + 2
          else if push_dir = 's' then (ty + (target_comp.height : Int)) - start_comp.placed_y + 2
          else if push_dir = 'e' then (tx + (target_comp.width : Int)) - start_comp.placed_x + 2
          else if push_dir = 'w' then (start_comp.placed_x + (start_comp.width : Int)) - tx + 2
          else 0
        let d := if d ≤ 0 then (start_comp.width : Int) + start_comp.height + 3 else d
        if d > 20 then 20 else d
      else fallback
    | none => fallback
  let mv : SlideMove :=
    { component_index := start_comp_idx, direction := push_dir, distance := slide_distance
      new_x := if push_dir = 'e' then start_comp.placed_x + slide_distance
               else if push_dir = 'w' then start_comp.placed_x - slide_distance
               else start_comp.placed_x
      new_y := if push_dir = 'n' then start_comp.placed_y - slide_distance
               else if push_dir = 's' then start_comp.placed_y + slide_distance
               else start_comp.placed_y }
  { moves := [mv], total_displacement := slide_distance, target_x := tx, target_y := ty }

/-- find_sliding_chains: store the target in conflict_state, collect
the conflicting placed components, and build one chain per smart
direction per conflict, capped at MAX_SLIDE_CHAINS.  Returns success
together with the chains; no conflicts means success with none. -/
def find_sliding_chains (s : LayoutSolver) (ci : Nat) (x y : Int) :
    Bool × List SlideChain × LayoutSolver :=
  let s := { s with conflict_state := { s.conflict_state with target_component := (ci : Int) } }
  let target := s.components.getD ci default
  let conflicting := (List.range s.components.length).filter fun i =>
    let comp := s.components.getD i default
    i ≠ ci ∧ comp.is_placed ∧ has_character_overlap target x y comp comp.placed_x comp.placed_y
  if conflicting.length = 0 then (true, [], s)
  else
    let chains := conflicting.foldl
      (fun (acc : List SlideChain) i =>
        if acc.length ≥ 10 then acc
        else
          let cc := s.components.getD i default
          let dirs :=
            (if cc.placed_x < x + (target.width : Int) then ['w'] else []) ++
            (if cc.placed_x + (cc.width : Int) > x then ['e'] else []) ++
            (if cc.placed_y < y + (target.height : Int) then ['n'] else []) ++
            (if cc.placed_y + (cc.height : Int) > y then ['s'] else [])
          let dirs := if dirs.isEmpty then ['n', 's', 'e', 'w'] else dirs
          dirs.foldl
            (fun acc d =>
              if acc.length ≥ 10 then acc
              else acc ++ [find_directional_slide_chain s i d x y]) acc)
      []
    (chains.length > 0, chains, s)

/-- validate_slide_chain: every move stays within the padded grid
window. -/
def validate_slide_chain (chain : SlideChain) : Bool :=
  chain.moves.all fun mv =>
    !(decide (mv.new_x < -50) || decide (mv.new_y < -50) ||
      decide (mv.new_x > 150) || decide (mv.new_y > 150))

/-- execute_slide_chain: move every chained component (placement
fields only, the grid buffer is untouched); if any moved component
then character-overlaps a stationary placed component, roll all the
moves back and fail. -/
def execute_slide_chain (s : LayoutSolver) (chain : SlideChain) : Bool × LayoutSolver :=
  let s' := chain.moves.foldl
    (fun st mv =>
      let comp := st.components.getD mv.component_index default
      { st with
        components := (st.components.set mv.component_index
          { comp with placed_x := mv.new_x, placed_y := mv.new_y }) }) s
  let collision := chain.moves.any fun mv =>
    let comp1 := s'.components.getD mv.component_index default
    (List.range s'.components.length).any fun j =>
      let comp2 := s'.components.getD j default
      comp2.is_placed &&
        !(chain.moves.any fun m2 => m2.component_index == j) &&
        has_character_overlap comp1 comp1.placed_x comp1.placed_y comp2 comp2.placed_x comp2.placed_y
  if collision then (false, s) else (true, s')

/-- The chain loop of attempt_sliding_resolution. -/
def asr_loop (s : LayoutSolver) : List SlideChain → Bool × LayoutSolver
  | [] => (false, s)
  | ch :: rest =>
    if validate_slide_chain ch then
      match execute_slide_chain s ch with
      | (true, s') => (true, s')
      | (false, s') => asr_loop s' rest
    else asr_loop s rest

/-- attempt_sliding_resolution: find chains, then try them in order
(the slide statistics counters are pure diagnostics and are not
modelled). -/
def attempt_sliding_resolution (s : LayoutSolver) (ci : Nat) (x y : Int) : Bool × LayoutSolver :=
  match find_sliding_chains s ci x y with
  | (ok, chains, s') => if ok then asr_loop s' chains else (false, s')

/-- One placement option of the recursive solver, struct
PlacementOption: the originating constraint, the placed reference
component, the direction relative to it and the position. -/
structure PlacementOption where
  constraint_index : Nat
  other_comp : Nat
  dir : Char
  x : Int
  y : Int
deriving DecidableEq, Repr

/-- Direction reversal applied when the component being placed is
component a of the constraint. -/
def reverse_dir (d : Char) : Char :=
  if d = 'n' then 's' else if d = 's' then 'n'
  else if d = 'e' then 'w' else if d = 'w' then 'e' else d

/-- One candidate of phase 2 of get_placement_options. -/
structure OverlapPosition where
  slide_value : Int
  overlap_amount : Int
  x : Int
  y : Int
deriving DecidableEq, Repr

instance : Inhabited OverlapPosition := ⟨{ slide_value := 0, overlap_amount := 0, x := 0, y := 0 }⟩

/-- The literal selection-style sort of overlap positions by
descending overlap amount (outer i, inner j from i+1, swap on strictly
greater). -/
def sort_overlap_positions (l : List OverlapPosition) : List OverlapPosition :=
  (List.range (l.length - 1)).foldl
    (fun acc i =>
      ((List.range l.length).drop (i + 1)).foldl
        (fun acc2 j =>
          let a := acc2.getD i default
          let b := acc2.getD j default
          if b.overlap_amount > a.overlap_amount then (acc2.set i b).set j a else acc2)
        acc)
    l

/-- The inclusive integer range of the phase 2 slide loop. -/
def intRangeIncl (lo hi : Int) : List Int :=
  (List.range (hi + 1 - lo).toNat).map fun k => lo + (k : Int)

/-- The body of get_placement_options for one constraint: resolve the
placed reference and the relative direction, consume one rand bit,
add the wall-alignment candidates (order and the single
failed-position guard exactly as in the source), then the sliding
candidates sorted by overlap, deduplicated against the last
positions_added entries and filtered by the failed-position memory.
All additions respect the global cap of MAX_CONSTRAINTS * 10. -/
def gpo_for_constraint (randBits : Nat → Bool) (s : LayoutSolver) (ci : Nat) (cidx : Nat)
    (opts0 : List PlacementOption) (ridx0 : Nat) : List PlacementOption × Nat :=
  let comp := s.components.getD ci default
  let c := s.constraints.getD cidx default
  let od : Option Nat × Char :=
    if c.component_a == comp.name then (find_component s c.component_b, reverse_dir c.direction)
    else if c.component_b == comp.name then (find_component s c.component_a, c.direction)
    else (none, c.direction)
  match od.1 with
  | none => (opts0, ridx0)
  | some oi =>
    let other := s.components.getD oi default
    if !(other.is_placed && decide (opts0.length < 500)) then (opts0, ridx0)
    else if !(od.2 = 'n' ∨ od.2 = 's' ∨ od.2 = 'e' ∨ od.2 = 'w') then (opts0, ridx0)
    else
      let dir := od.2
      let ns := dir = 'n' ∨ dir = 's'
      let base_x : Int :=
        if ns then other.placed_x
        else if dir = 'e' then other.placed_x + (other.width : Int)
        else other.placed_x - (comp.width : Int)
      let base_y : Int :=
        if dir = 'n' then other.placed_y - (comp.height : Int)
        else if dir = 's' then other.placed_y + (other.height : Int)
        else other.placed_y
      let slide_min : Int := if ns then -(other.width : Int) else -(other.height : Int)
      let slide_max : Int := if ns then (other.width : Int) else (other.height : Int)
      let prefer := randBits ridx0
      let ridx := ridx0 + 1
      let p1 :=
        if ns ∧ opts0.length < 500 then
          let align_left := other.placed_x
          let align_right := other.placed_x + (other.width : Int) - (comp.width : Int)
          let addL := fun (o : List PlacementOption) (guarded : Bool) =>
            if align_left ≥ base_x + slide_min ∧ align_left ≤ base_x + slide_max then
              if guarded && is_position_failed s ci align_left base_y then (o, 0)
              else (o ++ [⟨cidx, oi, dir, align_left, base_y⟩], 1)
            else (o, 0)
          let addR := fun (o : List PlacementOption) =>
            if align_right ≥ base_x + slide_min ∧ align_right ≤ base_x + slide_max then
              (o ++ [⟨cidx, oi, dir, align_right, base_y⟩], 1)
            else (o, 0)
          if prefer then
            let (o1, n1) := addL opts0 true
            let (o2, n2) := addR o1
            (o2, n1 + n2)
          else
            let (o1, n1) := addR opts0
            let (o2, n2) := addL o1 false
            (o2, n1 + n2)
        else if (dir = 'e' ∨ dir = 'w') ∧ opts0.length < 500 then
          let align_top := other.placed_y
          let align_bottom := other.placed_y + (other.height : Int) - (comp.height : Int)
          let addT := fun (o : List PlacementOption) =>
            if align_top ≥ base_y + slide_min ∧ align_top ≤ base_y + slide_max then
              (o ++ [⟨cidx, oi, dir, base_x, align_top⟩], 1)
            else (o, 0)
          let addB := fun (o : List PlacementOption) =>
            if align_bottom ≥ base_y + slide_min ∧ align_bottom ≤ base_y + slide_max then
              (o ++ [⟨cidx, oi, dir, base_x, align_bottom⟩], 1)
            else (o, 0)
          if prefer then
            let (o1, n1) := addT opts0
            let (o2, n2) := addB o1
            (o2, n1 + n2)
          else
            let (o1, n1) := addB opts0
            let (o2, n2) := addT o1
            (o2, n1 + n2)
        else (opts0, 0)
      let opts1 := p1.1
      let positions_added := p1.2
      let min_ov0 : Int :=
        if ns then other.placed_x - (comp.width : Int) + 1 - base_x
        else other.placed_y - (comp.height : Int) + 1 - base_y
      let max_ov0 : Int :=
        if ns then other.placed_x + (other.width : Int) - 1 - base_x
        else other.placed_y + (other.height : Int) - 1 - base_y
      let min_ov := if min_ov0 < slide_min then slide_min else min_ov0
      let max_ov := if max_ov0 > slide_max then slide_max else max_ov0
      let dxv : Int := if ns then 1 else 0
      let dyv : Int := if ns then 0 else 1
      let ovps := (intRangeIncl min_ov max_ov).foldl
        (fun (acc : List OverlapPosition) sl =>
          if acc.length ≥ 100 then acc
          else
            let sx := base_x + sl * dxv
            let sy := base_y + sl * dyv
            let ov : Int :=
              if ns then
                let os := if sx > other.placed_x then sx else other.placed_x
                let oe := if sx + (comp.width : Int) < other.placed_x + (other.width : Int)
                          then sx + (comp.width : Int) else other.placed_x + (other.width : Int)
                oe - os
              else
                let os := if sy > other.placed_y then sy else other.placed_y
                let oe := if sy + (comp.height : Int) < other.placed_y + (other.height : Int)
                          then sy + (comp.height : Int) else other.placed_y + (other.height : Int)
                oe - os
            if ov > 0 then acc ++ [⟨sl, ov, sx, sy⟩] else acc)
        []
      let ovps := sort_overlap_positions ovps
      let opts2 := ovps.foldl
        (fun (opts : List PlacementOption) op =>
          if opts.length ≥ 500 then opts
          else
            let window := opts.drop (opts.length - positions_added)
            if window.any (fun o => o.x == op.x && o.y == op.y) then opts
            else if is_position_failed s ci op.x op.y then opts
            else opts ++ [⟨cidx, oi, dir, op.x, op.y⟩])
        opts1
      (opts2, ridx)

/-- get_placement_options: iterate gpo_for_constraint over all
constraints, threading the option list and the rand stream position
(the only mutation of solver state). -/
def get_placement_options (randBits : Nat → Bool) (s : LayoutSolver) (ci : Nat) :
    List PlacementOption × LayoutSolver :=
  let r := (List.range s.constraints.length).foldl
    (fun (acc : List PlacementOption × Nat) cidx =>
      gpo_for_constraint randBits s ci cidx acc.1 acc.2)
    ([], s.rand_index)
  (r.1, { s with rand_index := r.2 })

/-- The grid write of a successful placement inside
try_placement_options: unlike place_component, this one subtracts the
grid origin and clips to the tracked width and height, and it also
copies the group id of the reference component. -/
def rec_place_on_grid (s : LayoutSolver) (ci : Nat) (x y : Int) (gid : Int) : LayoutSolver :=
  let comp := s.components.getD ci default
  { s with
    components := s.components.set ci
      { comp with placed_x := x, placed_y := y, is_placed := true, group_id := gid }
    grid := fun j i =>
      if 0 ≤ i ∧ i < s.grid_width ∧ 0 ≤ j ∧ j < s.grid_height ∧
         x ≤ i + s.grid_min_x ∧ i + s.grid_min_x < x + (comp.width : Int) ∧
         y ≤ j + s.grid_min_y ∧ j + s.grid_min_y < y + (comp.height : Int) ∧
         tileAt comp (j + s.grid_min_y - y).toNat (i + s.grid_min_x - x).toNat ≠ ' ' then
        tileAt comp (j + s.grid_min_y - y).toNat (i + s.grid_min_x - x).toNat
      else s.grid j i }

/-- The constraint-satisfaction test of one recursive-solver trial:
bounding-box overlap along the axis matching the option direction,
against the current position of the reference component. -/
def rec_option_satisfies (s : LayoutSolver) (ci : Nat) (o : PlacementOption) : Bool :=
  let comp := s.components.getD ci default
  let other := s.components.getD o.other_comp default
  ((o.dir == 'n' || o.dir == 's') &&
    has_horizontal_overlap o.x comp.width other.placed_x other.width) ||
  ((o.dir == 'e' || o.dir == 'w') &&
    has_vertical_overlap o.y comp.height other.placed_y other.height)

/-- The four mutually recursive control states of the recursive tree
solver: one search node (place_component_recursive), the option
preparation of try_placement_options, its option loop, and one branch
trial.  Defunctionalised like the tree solver so the recursion is
structural in the fuel. -/
inductive RecCall where
  | pcr (s : LayoutSolver) (depth : Int)
  | tpo (s : LayoutSolver) (ci : Nat) (depth : Int)
  | loop (s : LayoutSolver) (ci : Nat) (depth : Int) (idx : Nat) (os : List PlacementOption)
  | trial (s : LayoutSolver) (ci : Nat) (depth : Int) (o : PlacementOption)

/-- The solver state carried by a control state. -/
def RecCall.state : RecCall → LayoutSolver
  | .pcr s _ => s
  | .tpo s _ _ => s
  | .loop s _ _ _ _ => s
  | .trial s _ _ _ => s

/-- The recursive tree solver recursion, fuel-indexed.

pcr (place_component_recursive): success when every component in
placement order is placed; otherwise increment the global iteration
counter, abort with failure beyond MAX_SOLVER_ITERATIONS, and try the
placement options of the next component.

tpo (try_placement_options): generate the options, then the two
reordering passes (non-overlapping candidates first; each pass expands
the grid for the candidate before testing it, and those expansions
persist), then the option loop.

loop: snapshot, try the branch, and on failure record the failed
position, restore the snapshot and move to the next option.

trial: expand and test overlap; on a clear cell check the option
constraint and place, recursing into pcr; on overlap run conflict
detection, sliding resolution with relocation fallback, and retry once
after a successful resolution.  Every failing path returns the state
as it stands (recording and restoring happen in the loop). -/
def rec_run (randBits : Nat → Bool) : Nat → RecCall → Bool × LayoutSolver
  | 0, c => (false, c.state)
  | f + 1, .pcr s depth =>
    (match get_next_component_intelligent s with
    | none => (true, s)
    | some ci =>
      let s := { s with total_iterations := s.total_iterations + 1 }
      if s.total_iterations > MAX_SOLVER_ITERATIONS then (false, s)
      else rec_run randBits f (.tpo s ci depth))
  | f + 1, .tpo s ci depth =>
    let r := get_placement_options randBits s ci
    let options := r.1
    let s := r.2
    let pass1 := options.foldl
      (fun (acc : List PlacementOption × LayoutSolver) o =>
        let st := expand_grid_for_component acc.2 ci o.x o.y
        if !(has_overlap st ci o.x o.y) then (acc.1 ++ [o], st) else (acc.1, st))
      ([], s)
    let pass2 := options.foldl
      (fun (acc : List PlacementOption × LayoutSolver) o =>
        let st := expand_grid_for_component acc.2 ci o.x o.y
        if has_overlap st ci o.x o.y then (acc.1 ++ [o], st) else (acc.1, st))
      ([], pass1.2)
    rec_run randBits f (.loop pass2.2 ci depth 0 (pass1.1 ++ pass2.1))
  | _ + 1, .loop s _ _ _ [] => (false, s)
  | f + 1, .loop s ci depth idx (o :: rest) =>
    let s1 := save_solver_state s (ci : Int) (idx : Int) (idx : Int)
    (match rec_run randBits f (.trial s1 ci depth o) with
    | (true, s') => (true, s')
    | (false, s') =>
      rec_run randBits f
        (.loop (restore_solver_state (record_failed_position s' ci o.x o.y)) ci depth (idx + 1) rest))
  | f + 1, .trial s ci depth o =>
    let s := expand_grid_for_component s ci o.x o.y
    if !has_overlap s ci o.x o.y then
      if rec_option_satisfies s ci o then
        let gid := (s.components.getD o.other_comp default).group_id
        let s := rec_place_on_grid s ci o.x o.y gid
        rec_run randBits f (.pcr s (depth + 1))
      else (false, s)
    else
      let dc := detect_placement_conflicts s ci o.x o.y
      if dc.1 > 0 then
        let res :=
          match attempt_sliding_resolution dc.2 ci o.x o.y with
          | (true, st) => (true, st)
          | (false, st) => attempt_conflict_resolution st ci o.x o.y
        if res.1 then
          let s := expand_grid_for_component res.2 ci o.x o.y
          if !has_overlap s ci o.x o.y then
            if rec_option_satisfies s ci o then
              let gid := (s.components.getD o.other_comp default).group_id
              let s := rec_place_on_grid s ci o.x o.y gid
              rec_run randBits f (.pcr s (depth + 1))
            else (false, s)
          else (false, s)
        else (false, res.2)
      else (false, dc.2)

/-- place_component_recursive as a function. -/
def place_component_recursive (randBits : Nat → Bool) (f : Nat) (s : LayoutSolver) (depth : Int) :
    Bool × LayoutSolver :=
  rec_run randBits f (.pcr s depth)

/-- normalize_grid_coordinates: once any origin coordinate is
negative, shift all placed components by the negated origin and
repaint the whole buffer from their tiles in component order. -/
def normalize_grid_coordinates (s : LayoutSolver) : LayoutSolver :=
  if s.grid_min_x ≥ 0 ∧ s.grid_min_y ≥ 0 then s
  else
    let dx := -s.grid_min_x
    let dy := -s.grid_min_y
    let comps := s.components.map fun c =>
      if c.is_placed then { c with placed_x := c.placed_x + dx, placed_y := c.placed_y + dy } else c
    let g := comps.foldl
      (fun (g : Int → Int → Char) c =>
        if c.is_placed then
          fun j i =>
            if 0 ≤ i ∧ i < 200 ∧ 0 ≤ j ∧ j < 200 ∧
               c.placed_x ≤ i ∧ i < c.placed_x + (c.width : Int) ∧
               c.placed_y ≤ j ∧ j < c.placed_y + (c.height : Int) ∧
               tileAt c (j - c.placed_y).toNat (i - c.placed_x).toNat ≠ ' ' then
              tileAt c (j - c.placed_y).toNat (i - c.placed_x).toNat
            else g j i
        else g)
      (fun _ _ => ' ')
    { s with grid := g, components := comps, grid_min_x := 0, grid_min_y := 0 }

/-- solve_recursive_tree: analyse dependencies, order the components,
seed the grid with the first component at the origin, search, and
normalize the coordinates on success. -/
def solve_recursive_tree (randBits : Nat → Bool) (f : Nat) (s : LayoutSolver) :
    Bool × LayoutSolver :=
  if s.components.length = 0 then (true, s)
  else
    let s := determine_placement_order (calculate_mobility_scores (analyze_constraint_dependencies s))
    let first := s.placement_order.getD 0 0
    let comp := s.components.getD first default
    let s := { s with grid_width := (comp.width : Int), grid_height := (comp.height : Int)
                      grid_min_x := 0, grid_min_y := 0 }
    let s := { s with
      components := s.components.set first
        { comp with placed_x := 0, placed_y := 0, is_placed := true, group_id := s.next_group_id }
      next_group_id := s.next_group_id + 1 }
    let s :=
      { s with
        grid := fun j i =>
          if 0 ≤ i ∧ i < (comp.width : Int) ∧ 0 ≤ j ∧ j < (comp.height : Int) ∧
             tileAt comp j.toNat i.toNat ≠ ' ' then tileAt comp j.toNat i.toNat
          else s.grid j i }
    match place_component_recursive randBits f s 1 with
    | (true, s') => (true, normalize_grid_coordinates s')
    | (false, s') => (false, s')

/-- set_solver_type: accept only known strategy numbers. -/
def set_solver_type (s : LayoutSolver) (t : Nat) : LayoutSolver :=
  if t < 2 then { s with solver_type := t } else s

/-- solve_constraints: dispatch on the configured strategy; 0 is the
default recursive tree, 1 the tree-based constraint solver.  The rand
bit stream and its position thread through the recursive strategy
only. -/
def solve_constraints (randBits : Nat → Bool) (f : Nat) (s : LayoutSolver) : Bool × LayoutSolver :=
  if s.solver_type = 0 then solve_recursive_tree randBits f s
  else if s.solver_type = 1 then solve_tree_constraint f s
  else (false, s)

/-- Reading the grid at a world coordinate, the way has_overlap,
move_component_group and display_grid do: array index equals world
coordinate minus the grid origin. -/
def gridAtWorld (s : LayoutSolver) (x y : Int) : Char :=
  s.grid (y - s.grid_min_y) (x - s.grid_min_x)

/-- First half of the claimed core invariant: every non-blank tile
cell of every placed component equals the grid character at its world
coordinate. -/
def mask_grid_agreement (s : LayoutSolver) : Prop :=
  ∀ ci ∈ List.range s.components.length,
    (s.components.getD ci default).is_placed = true →
    ∀ dy ∈ List.range (s.components.getD ci default).height,
      ∀ dx ∈ List.range (s.components.getD ci default).width,
        tileAt (s.components.getD ci default) dy dx ≠ ' ' →
        gridAtWorld s ((s.components.getD ci default).placed_x + dx)
            ((s.components.getD ci default).placed_y + dy) =
          tileAt (s.components.getD ci default) dy dx

/-- Second half of the claimed core invariant: no two placed
components have non-blank cells at the same world coordinate. -/
def no_placed_overlap (s : LayoutSolver) : Prop :=
  ∀ ci ∈ List.range s.components.length,
    ∀ cj ∈ List.range s.components.length,
      ci ≠ cj →
      (s.components.getD ci default).is_placed = true →
      (s.components.getD cj default).is_placed = true →
      has_character_overlap (s.components.getD ci default)
        (s.components.getD ci default).placed_x (s.components.getD ci default).placed_y
        (s.components.getD cj default)
        (s.components.getD cj default).placed_x (s.components.getD cj default).placed_y = false

/-- The claimed core invariant of claim C2. -/
def core_invariant (s : LayoutSolver) : Prop :=
  mask_grid_agreement s ∧ no_placed_overlap s

/-- A freshly initialised solver holding the given components, as
produced by init_solver followed by add_component calls (which create
only unplaced components). -/
def initial_state (comps : List Component) (w h : Int) : LayoutSolver :=
  { init_solver w h with components := comps }

/-- States reachable through the solver placement and removal
operations: guarded placement exactly as tree_place_component performs
it (validity check, whose grid expansion persists, then
place_component), and remove_component. -/
inductive SolverReachable : LayoutSolver → Prop where
  | init (comps : List Component) (w h : Int)
      (hunpl : ∀ c ∈ comps, c.is_placed = false) :
      SolverReachable (initial_state comps w h)
  | place (s : LayoutSolver) (ci : Nat) (x y : Int)
      (hs : SolverReachable s)
      (hok : (tree_place_component s ci x y).1 = true) :
      SolverReachable (tree_place_component s ci x y).2
  | remove (s : LayoutSolver) (ci : Nat)
      (hs : SolverReachable s) :
      SolverReachable (remove_component s ci)

/-- The same reachability, restricted to placements that keep every
coordinate inside the fixed 200 by 200 buffer with a non-negative
origin (so the origin never moves), starting from an initial grid
window of admissible size. -/
inductive SolverReachableNN : LayoutSolver → Prop where
  | init (comps : List Component) (w h : Int)
      (hunpl : ∀ c ∈ comps, c.is_placed = false)
      (hw0 : 0 ≤ w) (hw : w ≤ 200) (hh0 : 0 ≤ h) (hh : h ≤ 200) :
      SolverReachableNN (initial_state comps w h)
  | place (s : LayoutSolver) (ci : Nat) (x y : Int)
      (hs : SolverReachableNN s)
      (hok : (tree_place_component s ci x y).1 = true)
      (hx : 0 ≤ x) (hy : 0 ≤ y)
      (hxw : x + ((s.components.getD ci default).width : Int) ≤ 200)
      (hyh : y + ((s.components.getD ci default).height : Int) ≤ 200) :
      SolverReachableNN (tree_place_component s ci x y).2
  | remove (s : LayoutSolver) (ci : Nat)
      (hs : SolverReachableNN s) :
      SolverReachableNN (remove_component s ci)

/-- Placed components sit inside the tracked grid window. -/
def well_placed (s : LayoutSolver) : Prop :=
  ∀ ci ∈ List.range s.components.length,
    (s.components.getD ci default).is_placed = true →
      0 ≤ (s.components.getD ci default).placed_x ∧
      (s.components.getD ci default).placed_x +
        ((s.components.getD ci default).width : Int) ≤ s.grid_width ∧
      0 ≤ (s.components.getD ci default).placed_y ∧
      (s.components.getD ci default).placed_y +
        ((s.components.getD ci default).height : Int) ≤ s.grid_height

/-- Raw-index agreement: with the origin pinned at (0,0) the buffer
index of a world cell is the world coordinate itself. -/
def raw_agreement (s : LayoutSolver) : Prop :=
  ∀ ci ∈ List.range s.components.length,
    (s.components.getD ci default).is_placed = true →
    ∀ dy ∈ List.range (s.components.getD ci default).height,
      ∀ dx ∈ List.range (s.components.getD ci default).width,
        tileAt (s.components.getD ci default) dy dx ≠ ' ' →
        s.grid ((s.components.getD ci default).placed_y + dy)
            ((s.components.getD ci default).placed_x + dx) =
          tileAt (s.components.getD ci default) dy dx

/-- The inductive strengthening that the origin-pinned runs maintain:
origin at (0,0), window inside the 200 by 200 buffer, placed
components inside the window, raw agreement and pairwise
disjointness. -/
def strong_invariant (s : LayoutSolver) : Prop :=
  s.grid_min_x = 0 ∧ s.grid_min_y = 0 ∧
  0 ≤ s.grid_width ∧ s.grid_width ≤ 200 ∧
  0 ≤ s.grid_height ∧ s.grid_height ≤ 200 ∧
  well_placed s ∧ raw_agreement s ∧ no_placed_overlap s

def compsC2 : List Component :=
  (add_component (add_component (init_solver 60 40) "A" "A") "B" "B").components

def sBadC2 : LayoutSolver :=
  (tree_place_component (tree_place_component (initial_state compsC2 60 40) 0 2 0).2
    1 (-1) 0).2

/-- Every unplaced component carries the sentinel coordinates (-1,-1);
true after add_component and restored by remove_component. -/
def tidy (s : LayoutSolver) : Prop :=
  ∀ c ∈ s.components, c.is_placed = false → c.placed_x = -1 ∧ c.placed_y = -1

/-- Modelled from the spec words of claim C6: for direction North the
candidate positions are (bx + off, by - h) for every integer off from
-w+1 to bw-1 inclusive, where (bx,by) is the placed reference
position, bw its width, and w, h the unplaced tile dimensions. -/
def spec_north_candidates (bx by_ : Int) (bw w h : Nat) : List (Int × Int) :=
  (List.range (w + bw - 1)).map fun off => (bx + (-(w : Int) + 1 + off), by_ - (h : Int))

/-- Modelled from the spec words of claim C6: the South candidate set,
one row below the placed tile bottom, same x offsets as North. -/
def spec_south_candidates (bx by_ : Int) (bw bh w : Nat) : List (Int × Int) :=
  (List.range (w + bw - 1)).map fun off => (bx + (-(w : Int) + 1 + off), by_ + (bh : Int))

/-- Modelled from the spec words of claim C6: the East candidate set,
flush to the right of the placed tile, y offsets giving at least one
row of overlap. -/
def spec_east_candidates (bx by_ : Int) (bw bh h : Nat) : List (Int × Int) :=
  (List.range (h + bh - 1)).map fun off => (bx + (bw : Int), by_ + (-(h : Int) + 1 + off))

/-- Modelled from the spec words of claim C6: the West candidate set,
flush to the left of the placed tile. -/
def spec_west_candidates (bx by_ : Int) (bh w h : Nat) : List (Int × Int) :=
  (List.range (h + bh - 1)).map fun off => (bx - (w : Int), by_ + (-(h : Int) + 1 + off))

/-- Four 1 by 1 components with two ADJACENT constraints forming two
disconnected pairs; the input refuting claim C1. -/
def inpC1 : LayoutSolver :=
  add_constraint (add_constraint
    (add_component (add_component (add_component (add_component
      (init_solver 60 40) "A" "A") "B" "B") "C" "C") "D" "D")
    "ADJACENT(A, B, n)") "ADJACENT(C, D, n)"

/-- A 1 by 20 column tile of the given character row. -/
def col20 (c : String) : String := String.intercalate "\n" (List.replicate 20 c)

/-- Four 1 by 20 column components chained northward plus an empty
component E, with the chain constraints and one constraint tying E to
A; the tree solver run on this input reaches a failing trial whose
rollback loses a queue entry and a shifted grid (claim C3). -/
def inpC3 : LayoutSolver :=
  add_constraint (add_constraint (add_constraint (add_constraint
    (add_component (add_component (add_component (add_component (add_component
      (init_solver 60 40) "A" (col20 "A")) "B" (col20 "B")) "C" (col20 "C")) "D" (col20 "D")) "E" "")
    "ADJACENT(B, A, n)") "ADJACENT(C, B, n)") "ADJACENT(D, C, n)") "ADJACENT(E, A, n)"

/-- The state of the solve_tree_constraint run on inpC3 right after
the root placement: the tree queue initialised and A placed at the
root anchor. -/
def sRootC3 : LayoutSolver := place_component (init_tree_solver inpC3) 0 50 50

/-- The state of the same run at the trial of constraint 2 (D against
C): the first two frontier trials placed B and C and removed
constraints 0 and 1 from the queue; this is exactly the pre-trial
state the run observes. -/
def sPreC3 : LayoutSolver :=
  remove_remaining_constraint
    (tree_place_component
      (remove_remaining_constraint (tree_place_component sRootC3 1 50 30).2 0)
      2 50 10).2 1

/-- The single generated option of that trial, D at (50,-10). -/
def optC3 : TreePlacementOption :=
  (order_placement_options
    (generate_placement_options_for_constraint sPreC3 (inpC3.constraints.getD 2 default) 3)).getD 0
    { x := 0, y := 0, has_conflict := false, conflicts := [], preference_score := 0 }

/-- Two unconstrained 1 by 1 components; the input refuting claim
C4. -/
def inpC4 : LayoutSolver :=
  add_component (add_component (init_solver 60 40) "A" "A") "B" "B"

/-- A 7 by 1 reference component and a 3 by 1 component with a North
adjacency; the input for the scoring claims C6 and C7. -/
def inpC7 : LayoutSolver :=
  add_constraint (add_component (add_component (init_solver 60 40) "A" "AAAAAAA") "B" "BBB")
    "ADJACENT(B, A, n)"

/-- inpC7 with the reference component A placed at (50,50). -/
def sC7 : LayoutSolver := place_component inpC7 0 50 50

/-- The single constraint of inpC7. -/
def cC7 : DSLConstraint := inpC7.constraints.getD 0 default

/-- The geometrically contradictory three-cycle of the spec scenario
(ADJACENT(A,B,n), ADJACENT(B,C,n), ADJACENT(C,A,n) over 1 by 1
tiles); the input refuting claim C8. -/
def inpC8 : LayoutSolver :=
  add_constraint (add_constraint (add_constraint
    (add_component (add_component (add_component (init_solver 60 40) "A" "A") "B" "B") "C" "C")
    "ADJACENT(A, B, n)") "ADJACENT(B, C, n)") "ADJACENT(C, A, n)"

/-- A 3 by 1 reference and a 1 by 1 tile with one adjacency; the
wall-alignment candidates at both ends are both viable, so the rand
bit picks the final position (refutes claim C9). -/
def inpC9 : LayoutSolver :=
  add_constraint (add_component (add_component (init_solver 60 40) "A" "AAA") "B" "B")
    "ADJACENT(B, A, n)"

/-- A solver whose grid already holds a character under the footprint
of component 0; the state refuting the unconditional round trip of
claim C5. -/
def sC5 : LayoutSolver :=
  { add_component (init_solver 60 40) "B" "B" with
    grid := fun j i => if j = 0 ∧ i = 0 then 'X' else ' ' }

/-- A solver filled to MAX_COMPONENTS and MAX_CONSTRAINTS by the
public interface itself (20 components, 50 copies of one
constraint). -/
def sFullC10 : LayoutSolver :=
  (List.range 50).foldl (fun s _ => add_constraint s "ADJACENT(c0, c1, n)")
    ((List.range 20).foldl (fun s i => add_component s (toString i) "X") (init_solver 60 40))

/-- inpC1 with the tree-based constraint strategy selected, so that
solve_constraints dispatches to the tree solver the claim cites. -/
def inpC1tree : LayoutSolver := set_solver_type inpC1 1

/-- inpC9 with the tree-based constraint strategy selected. -/
def inpC9tree : LayoutSolver := set_solver_type inpC9 1

/-- A state at the iteration cap with an unplaced component first in
placement order, witnessing the abort of place_component_recursive. -/
def sIterCapC8 : LayoutSolver :=
  let s := add_component (add_component (init_solver 60 40) "A" "A") "B" "B"
  let s := determine_placement_order (calculate_mobility_scores (analyze_constraint_dependencies s))
  { s with total_iterations := 10000 }

/-- The side condition of the rollback analysis: in a trial or option
loop control state the component being tried is unplaced (as it always
is when advance_to_next_constraint starts the loop). -/
def tree_call_component_ok : TreeCall → Prop
  | .advance _ => True
  | .trial s _ uc _ => (s.components.getD uc default).is_placed = false
  | .opts s _ uc _ => (s.components.getD uc default).is_placed = false

/-!
Helper lemmas about the state operations, used by the claim theorems
below.
-/

theorem expand_grid_components (s : LayoutSolver) (ci : Nat) (x y : Int) :
    (expand_grid_for_component s ci x y).components = s.components := by
  unfold expand_grid_for_component
  cases s.components.get? ci
  · rfl
  · dsimp only
    rw [apply_ite LayoutSolver.components]
    exact ite_self _

theorem expand_grid_remaining (s : LayoutSolver) (ci : Nat) (x y : Int) :
    (expand_grid_for_component s ci x y).remaining_constraints = s.remaining_constraints := by
  unfold expand_grid_for_component
  cases s.components.get? ci
  · rfl
  · dsimp only
    rw [apply_ite LayoutSolver.remaining_constraints]
    exact ite_self _

theorem expand_grid_total_iterations (s : LayoutSolver) (ci : Nat) (x y : Int) :
    (expand_grid_for_component s ci x y).total_iterations = s.total_iterations := by
  unfold expand_grid_for_component
  cases s.components.get? ci
  · rfl
  · dsimp only
    rw [apply_ite LayoutSolver.total_iterations]
    exact ite_self _

theorem expand_grid_constraints (s : LayoutSolver) (ci : Nat) (x y : Int) :
    (expand_grid_for_component s ci x y).constraints = s.constraints := by
  unfold expand_grid_for_component
  cases s.components.get? ci
  · rfl
  · dsimp only
    rw [apply_ite LayoutSolver.constraints]
    exact ite_self _

theorem place_component_remaining (s : LayoutSolver) (ci : Nat) (x y : Int) :
    (place_component s ci x y).remaining_constraints = s.remaining_constraints := by
  unfold place_component
  cases s.components.get? ci
  · rfl
  · dsimp only
    rw [expand_grid_remaining]

theorem place_component_total_iterations (s : LayoutSolver) (ci : Nat) (x y : Int) :
    (place_component s ci x y).total_iterations = s.total_iterations := by
  unfold place_component
  cases s.components.get? ci
  · rfl
  · dsimp only
    rw [expand_grid_total_iterations]

theorem place_component_components (s : LayoutSolver) (ci : Nat) (x y : Int) (comp : Component)
    (h : s.components.get? ci = some comp) :
    (place_component s ci x y).components =
      s.components.set ci { comp with is_placed := true, placed_x := x, placed_y := y } := by
  unfold place_component
  rw [h]
  dsimp only
  rw [expand_grid_components]

theorem remove_component_remaining (s : LayoutSolver) (ci : Nat) :
    (remove_component s ci).remaining_constraints = s.remaining_constraints := by
  unfold remove_component
  cases s.components.get? ci
  · rfl
  · dsimp only
    rw [apply_ite LayoutSolver.remaining_constraints]
    exact ite_self _

theorem remove_component_total_iterations (s : LayoutSolver) (ci : Nat) :
    (remove_component s ci).total_iterations = s.total_iterations := by
  unfold remove_component
  cases s.components.get? ci
  · rfl
  · dsimp only
    rw [apply_ite LayoutSolver.total_iterations]
    exact ite_self _

theorem remove_component_components (s : LayoutSolver) (ci : Nat) (comp : Component)
    (h : s.components.get? ci = some comp) (hp : comp.is_placed = true) :
    (remove_component s ci).components =
      s.components.set ci { comp with is_placed := false, placed_x := -1, placed_y := -1 } := by
  unfold remove_component
  rw [h]
  dsimp only
  rw [if_pos hp]

theorem ipv_snd_components (s : LayoutSolver) (ci : Nat) (x y : Int) :
    (is_placement_valid s ci x y).2.components = s.components := by
  unfold is_placement_valid
  cases s.components.get? ci
  · rfl
  · dsimp only
    rw [expand_grid_components]

theorem ipv_snd_remaining (s : LayoutSolver) (ci : Nat) (x y : Int) :
    (is_placement_valid s ci x y).2.remaining_constraints = s.remaining_constraints := by
  unfold is_placement_valid
  cases s.components.get? ci
  · rfl
  · dsimp only
    rw [expand_grid_remaining]

theorem ipv_snd_total_iterations (s : LayoutSolver) (ci : Nat) (x y : Int) :
    (is_placement_valid s ci x y).2.total_iterations = s.total_iterations := by
  unfold is_placement_valid
  cases s.components.get? ci
  · rfl
  · dsimp only
    rw [expand_grid_total_iterations]

theorem tree_place_fst_false_snd (s : LayoutSolver) (ci : Nat) (x y : Int)
    (h : (tree_place_component s ci x y).1 = false) :
    (tree_place_component s ci x y).2 = (is_placement_valid s ci x y).2 := by
  unfold tree_place_component at *
  rcases hv : is_placement_valid s ci x y with ⟨ok, s1⟩
  rw [hv] at h
  dsimp only at h ⊢
  cases ok
  · rfl
  · simp at h

theorem tree_place_fst_true_snd (s : LayoutSolver) (ci : Nat) (x y : Int)
    (h : (tree_place_component s ci x y).1 = true) :
    (tree_place_component s ci x y).2 = place_component (is_placement_valid s ci x y).2 ci x y := by
  unfold tree_place_component at *
  rcases hv : is_placement_valid s ci x y with ⟨ok, s1⟩
  rw [hv] at h
  dsimp only at h ⊢
  cases ok
  · simp at h
  · rfl

theorem remove_remaining_components (s : LayoutSolver) (k : Nat) :
    (remove_remaining_constraint s k).components = s.components := rfl

theorem remove_remaining_counter (s : LayoutSolver) (k : Nat) :
    (remove_remaining_constraint s k).total_iterations = s.total_iterations := rfl

theorem remove_remaining_sublist (s : LayoutSolver) (k : Nat) :
    List.Sublist (remove_remaining_constraint s k).remaining_constraints s.remaining_constraints :=
  List.erase_sublist k s.remaining_constraints

theorem list_set_of_get? {α : Type} (l : List α) (i : Nat) (c : α) (h : l.get? i = some c) :
    l.set i c = l := by
  induction l generalizing i with
  | nil => rfl
  | cons a t ih =>
    cases i with
    | zero => simp_all
    | succ n =>
      simp only [List.get?] at h
      simp [List.set, ih n h]

theorem tidy_of_components_eq {s s' : LayoutSolver} (h : s'.components = s.components)
    (ht : tidy s) : tidy s' := by
  unfold tidy at *
  rw [h]
  exact ht

theorem comp_reset_eq (comp : Component) (hp : comp.is_placed = false)
    (hx : comp.placed_x = -1) (hy : comp.placed_y = -1) (x y : Int) :
    ({ { comp with is_placed := true, placed_x := x, placed_y := y } with
        is_placed := false, placed_x := -1, placed_y := -1 } : Component) = comp := by
  cases comp
  simp_all

theorem list_get?_set_self {α : Type} (l : List α) (i : Nat) (a : α) (h : i < l.length) :
    (l.set i a).get? i = some a := by
  induction l generalizing i with
  | nil => simp at h
  | cons b t ih =>
    cases i with
    | zero => rfl
    | succ n => exact ih n (by simpa using h)

theorem list_getD_of_get? {α : Type} [Inhabited α] (l : List α) (i : Nat) (c : α)
    (h : l.get? i = some c) : l.getD i default = c := by
  induction l generalizing i with
  | nil => simp at h
  | cons b t ih =>
    cases i with
    | zero => simp_all [List.getD]
    | succ n =>
      simp only [List.get?] at h
      simpa [List.getD] using ih n h

theorem place_component_none (s : LayoutSolver) (ci : Nat) (x y : Int)
    (h : s.components.get? ci = none) : place_component s ci x y = s := by
  unfold place_component
  rw [h]

theorem tidy_place (s : LayoutSolver) (ci : Nat) (x y : Int) (ht : tidy s) :
    tidy (place_component s ci x y) := by
  cases hget : s.components.get? ci with
  | none => rw [place_component_none s ci x y hget]; exact ht
  | some comp =>
    intro c hc hcp
    rw [place_component_components s ci x y comp hget] at hc
    rcases List.mem_or_eq_of_mem_set hc with hmem | hEq
    · exact ht c hmem hcp
    · subst hEq; simp at hcp

theorem ipv_fst_true_get (s : LayoutSolver) (ci : Nat) (x y : Int)
    (h : (is_placement_valid s ci x y).1 = true) :
    ∃ comp, s.components.get? ci = some comp := by
  revert h
  unfold is_placement_valid
  cases hget : s.components.get? ci with
  | none => intro h; exact Bool.noConfusion h
  | some comp => intro _; exact ⟨comp, rfl⟩

theorem tree_place_fst_true_ipv (s : LayoutSolver) (ci : Nat) (x y : Int)
    (h : (tree_place_component s ci x y).1 = true) :
    (is_placement_valid s ci x y).1 = true := by
  revert h
  unfold tree_place_component
  rcases hv : is_placement_valid s ci x y with ⟨ok, s1⟩
  dsimp only
  cases ok
  · intro h; exact Bool.noConfusion h
  · intro _; rfl

theorem remove_after_place_components (s s3 : LayoutSolver) (ci : Nat) (comp : Component)
    (x y : Int) (hget : s.components.get? ci = some comp)
    (hp : comp.is_placed = false) (hx : comp.placed_x = -1) (hy : comp.placed_y = -1)
    (h3 : s3.components =
      s.components.set ci { comp with is_placed := true, placed_x := x, placed_y := y }) :
    (remove_component s3 ci).components = s.components := by
  have hlen : ci < s.components.length := by
    by_contra hge
    rw [List.get?_eq_none.2 (Nat.le_of_not_lt hge)] at hget
    exact Option.noConfusion hget
  have hget3 : s3.components.get? ci =
      some { comp with is_placed := true, placed_x := x, placed_y := y } := by
    rw [h3]
    exact list_get?_set_self _ _ _ hlen
  rw [remove_component_components s3 ci _ hget3 rfl, h3, List.set_set,
      comp_reset_eq comp hp hx hy x y, list_set_of_get? _ _ _ hget]

theorem unplaced_endpoint_of_unplaced (s : LayoutSolver) (c : DSLConstraint) (uc : Nat)
    (h : unplaced_endpoint_of s c = some uc) :
    (s.components.getD uc default).is_placed = false := by
  revert h
  unfold unplaced_endpoint_of
  dsimp only
  split
  · rename_i hun
    intro h
    cases hfa : find_component s c.component_a with
    | none => rw [hfa] at hun; exact Bool.noConfusion hun
    | some i =>
      rw [hfa] at hun h
      simp only [Option.some.injEq] at h
      subst h
      simpa using hun
  · split
    · rename_i hun
      intro h
      cases hfb : find_component s c.component_b with
      | none => rw [hfb] at hun; exact Bool.noConfusion hun
      | some i =>
        rw [hfb] at hun h
        simp only [Option.some.injEq] at h
        subst h
        simpa using hun
    · intro h; exact Option.noConfusion h

theorem tree_run_counter (f : Nat) (c : TreeCall) :
    (tree_run f c).2.total_iterations = c.state.total_iterations := by
  induction f generalizing c with
  | zero => rfl
  | succ f ih =>
    match c with
    | .advance s =>
      simp only [tree_run, TreeCall.state]
      cases hg : get_next_constraint_involving_placed s with
      | none => rfl
      | some k =>
        dsimp only
        cases hu : unplaced_endpoint_of s (s.constraints.getD k default) with
        | none =>
          dsimp only
          by_cases hchk : advance_validate s k = true
          · rw [if_pos hchk]
            rw [ih (.advance (remove_remaining_constraint s k))]
            rfl
          · rw [if_neg hchk]
        | some uc =>
          dsimp only
          by_cases hlen :
              (generate_placement_options_for_constraint s (s.constraints.getD k default) uc).length = 0
          · rw [if_pos hlen]
          · rw [if_neg hlen]
            exact ih (.opts s k uc _)
    | .trial s k uc o =>
      simp only [tree_run, TreeCall.state]
      rcases htp : tree_place_component s uc o.x o.y with ⟨ok, s1⟩
      have htp1 : (tree_place_component s uc o.x o.y).1 = ok := by rw [htp]
      have htp2 : (tree_place_component s uc o.x o.y).2 = s1 := by rw [htp]
      cases ok with
      | false =>
        dsimp only
        rw [tree_place_fst_false_snd s uc o.x o.y htp1] at htp2
        rw [← htp2, ipv_snd_total_iterations]
      | true =>
        dsimp only
        rw [tree_place_fst_true_snd s uc o.x o.y htp1] at htp2
        have hs1c : s1.total_iterations = s.total_iterations := by
          rw [← htp2, place_component_total_iterations, ipv_snd_total_iterations]
        rcases hr : tree_run f (.advance (remove_remaining_constraint s1 k)) with ⟨res, s3⟩
        have hr2 : (tree_run f (.advance (remove_remaining_constraint s1 k))).2 = s3 := by rw [hr]
        have hs3 : s3.total_iterations = s.total_iterations := by
          rw [← hr2, ih (.advance (remove_remaining_constraint s1 k))]
          simpa [TreeCall.state, remove_remaining_counter] using hs1c
        cases res with
        | true => exact hs3
        | false =>
          dsimp only
          rw [remove_component_total_iterations]
          exact hs3
    | .opts s k uc [] =>
      simp only [tree_run, TreeCall.state]
    | .opts s k uc (o :: rest) =>
      simp only [tree_run, TreeCall.state]
      rcases hr : tree_run f (.trial s k uc o) with ⟨res, s'⟩
      have hr2 : (tree_run f (.trial s k uc o)).2 = s' := by rw [hr]
      have hs' : s'.total_iterations = s.total_iterations := by
        rw [← hr2, ih (.trial s k uc o)]
        rfl
      cases res with
      | true => exact hs'
      | false =>
        dsimp only
        rw [ih (.opts s' k uc rest)]
        exact hs'

theorem tree_run_queue_sublist (f : Nat) (c : TreeCall) :
    List.Sublist (tree_run f c).2.remaining_constraints c.state.remaining_constraints := by
  induction f generalizing c with
  | zero => exact List.Sublist.refl _
  | succ f ih =>
    match c with
    | .advance s =>
      simp only [tree_run, TreeCall.state]
      cases hg : get_next_constraint_involving_placed s with
      | none => exact List.Sublist.refl _
      | some k =>
        dsimp only
        cases hu : unplaced_endpoint_of s (s.constraints.getD k default) with
        | none =>
          dsimp only
          by_cases hchk : advance_validate s k = true
          · rw [if_pos hchk]
            exact (ih (.advance (remove_remaining_constraint s k))).trans
              (remove_remaining_sublist s k)
          · rw [if_neg hchk]
        | some uc =>
          dsimp only
          by_cases hlen :
              (generate_placement_options_for_constraint s (s.constraints.getD k default) uc).length = 0
          · rw [if_pos hlen]
          · rw [if_neg hlen]
            exact ih (.opts s k uc _)
    | .trial s k uc o =>
      simp only [tree_run, TreeCall.state]
      rcases htp : tree_place_component s uc o.x o.y with ⟨ok, s1⟩
      have htp1 : (tree_place_component s uc o.x o.y).1 = ok := by rw [htp]
      have htp2 : (tree_place_component s uc o.x o.y).2 = s1 := by rw [htp]
      cases ok with
      | false =>
        dsimp only
        rw [tree_place_fst_false_snd s uc o.x o.y htp1] at htp2
        rw [← htp2, ipv_snd_remaining]
      | true =>
        dsimp only
        rw [tree_place_fst_true_snd s uc o.x o.y htp1] at htp2
        have hs1r : s1.remaining_constraints = s.remaining_constraints := by
          rw [← htp2, place_component_remaining, ipv_snd_remaining]
        rcases hr : tree_run f (.advance (remove_remaining_constraint s1 k)) with ⟨res, s3⟩
        have hr2 : (tree_run f (.advance (remove_remaining_constraint s1 k))).2 = s3 := by rw [hr]
        have hs3 : List.Sublist s3.remaining_constraints s.remaining_constraints := by
          rw [← hr2]
          refine ((ih (.advance (remove_remaining_constraint s1 k))).trans ?_)
          rw [show (TreeCall.advance (remove_remaining_constraint s1 k)).state =
            remove_remaining_constraint s1 k from rfl] at *
          have := remove_remaining_sublist s1 k
          rw [hs1r] at this
          exact this
        cases res with
        | true => exact hs3
        | false =>
          dsimp only
          rw [remove_component_remaining]
          exact hs3
    | .opts s k uc [] =>
      simp only [tree_run, TreeCall.state]
      exact List.Sublist.refl _
    | .opts s k uc (o :: rest) =>
      simp only [tree_run, TreeCall.state]
      rcases hr : tree_run f (.trial s k uc o) with ⟨res, s'⟩
      have hr2 : (tree_run f (.trial s k uc o)).2 = s' := by rw [hr]
      have hs' : List.Sublist s'.remaining_constraints s.remaining_constraints := by
        rw [← hr2]
        exact ih (.trial s k uc o)
      cases res with
      | true => exact hs'
      | false =>
        dsimp only
        exact (ih (.opts s' k uc rest)).trans hs'

theorem tree_run_components_of_fail (f : Nat) : ∀ c : TreeCall,
    tidy c.state → tree_call_component_ok c → (tree_run f c).1 = false →
    (tree_run f c).2.components = c.state.components := by
  induction f with
  | zero => intro c _ _ _; rfl
  | succ f ih =>
    intro c ht hok hfail
    match c with
    | .advance s =>
      simp only [tree_run, TreeCall.state] at hfail ⊢
      cases hg : get_next_constraint_involving_placed s with
      | none => rw [hg] at hfail
      | some k =>
        rw [hg] at hfail
        dsimp only at hfail ⊢
        cases hu : unplaced_endpoint_of s (s.constraints.getD k default) with
        | none =>
          rw [hu] at hfail
          dsimp only at hfail ⊢
          by_cases hchk : advance_validate s k = true
          · rw [if_pos hchk] at hfail ⊢
            rw [ih (.advance (remove_remaining_constraint s k))
              (tidy_of_components_eq (remove_remaining_components s k) ht) trivial hfail]
            rfl
          · rw [if_neg hchk]
        | some uc =>
          rw [hu] at hfail
          dsimp only at hfail ⊢
          by_cases hlen :
              (generate_placement_options_for_constraint s (s.constraints.getD k default) uc).length = 0
          · rw [if_pos hlen]
          · rw [if_neg hlen] at hfail ⊢
            exact ih (.opts s k uc _) ht (unplaced_endpoint_of_unplaced s _ uc hu) hfail
    | .trial s k uc o =>
      simp only [tree_run, TreeCall.state] at hfail ⊢
      rcases htp : tree_place_component s uc o.x o.y with ⟨ok, s1⟩
      rw [htp] at hfail
      have htp1 : (tree_place_component s uc o.x o.y).1 = ok := by rw [htp]
      have htp2 : (tree_place_component s uc o.x o.y).2 = s1 := by rw [htp]
      cases ok with
      | false =>
        dsimp only
        rw [tree_place_fst_false_snd s uc o.x o.y htp1] at htp2
        rw [← htp2, ipv_snd_components]
      | true =>
        dsimp only at hfail ⊢
        have hipv : (is_placement_valid s uc o.x o.y).1 = true :=
          tree_place_fst_true_ipv s uc o.x o.y htp1
        obtain ⟨comp, hget⟩ := ipv_fst_true_get s uc o.x o.y hipv
        have hunpl : comp.is_placed = false := by
          have := list_getD_of_get? s.components uc comp hget
          rw [← this]
          exact hok
        obtain ⟨hx1, hy1⟩ := ht comp (List.get?_mem hget) hunpl
        rw [tree_place_fst_true_snd s uc o.x o.y htp1] at htp2
        have hs1 : s1.components =
            s.components.set uc { comp with is_placed := true, placed_x := o.x, placed_y := o.y } := by
          rw [← htp2, place_component_components _ uc o.x o.y comp
            (by rw [ipv_snd_components]; exact hget), ipv_snd_components]
        rcases hr : tree_run f (.advance (remove_remaining_constraint s1 k)) with ⟨res, s3⟩
        rw [hr] at hfail
        cases res with
        | true => exact Bool.noConfusion hfail
        | false =>
          dsimp only
          have htidy1 : tidy s1 := by
            refine tidy_of_components_eq (s := place_component (is_placement_valid s uc o.x o.y).2 uc o.x o.y) (by rw [htp2]) ?_
            exact tidy_place _ uc o.x o.y
              (tidy_of_components_eq (ipv_snd_components s uc o.x o.y) ht)
          have hs3 : s3.components = s1.components := by
            have := ih (.advance (remove_remaining_constraint s1 k))
              (tidy_of_components_eq (remove_remaining_components s1 k) htidy1) trivial
              (by rw [hr])
            rw [hr] at this
            exact this
          exact remove_after_place_components s s3 uc comp o.x o.y hget hunpl hx1 hy1
            (by rw [hs3, hs1])
    | .opts s k uc [] =>
      simp only [tree_run, TreeCall.state]
    | .opts s k uc (o :: rest) =>
      simp only [tree_run, TreeCall.state] at hfail ⊢
      rcases hr : tree_run f (.trial s k uc o) with ⟨res, s'⟩
      rw [hr] at hfail
      cases res with
      | true => exact Bool.noConfusion hfail
      | false =>
        dsimp only at hfail ⊢
        have hs' : s'.components = s.components := by
          have := ih (.trial s k uc o) ht hok (by rw [hr])
          rw [hr] at this
          exact this
        have := ih (.opts s' k uc rest)
          (tidy_of_components_eq hs' ht)
          (by show (s'.components.getD uc default).is_placed = false; rw [hs']; exact hok)
          hfail
        rw [this]
        exact hs'

/-!
The claim theorems.
-/

/-- Claim C1. The claim is refuted by the program itself: on the
four-component input with two disconnected ADJACENT pairs, solve
reports success while the second constraint validates false and both
of its endpoints are left unplaced.  advance_to_next_constraint
returns success as soon as no remaining constraint has exactly one
placed endpoint, without checking that every component was placed or
every constraint satisfied. -/
theorem c1_success_without_validation :
    (solve_constraints (fun _ => true) 50 inpC1tree).1 = true ∧
    adjacent_validate_constraint (solve_constraints (fun _ => true) 50 inpC1tree).2
      (inpC1tree.constraints.getD 1 default) = false ∧
    ((solve_constraints (fun _ => true) 50 inpC1tree).2.components.getD 2 default).is_placed
      = false ∧
    ((solve_constraints (fun _ => true) 50 inpC1tree).2.components.getD 3 default).is_placed
      = false := by
  decide

/-- Claim C4, counterexample.  The claim says that with no frontier
constraint the tree solver fails when unplaced components remain; in
the code advance_to_next_constraint returns success regardless: on two
unconstrained components the run succeeds with component 1 never
placed. -/
theorem c4_counterexample :
    (solve_tree_constraint 50 inpC4).1 = true ∧
    ((solve_tree_constraint 50 inpC4).2.components.getD 1 default).is_placed = false := by
  decide

/-- Claim C4, amended.  What the code actually does: whenever
get_next_constraint_involving_placed finds no frontier constraint,
advance_to_next_constraint immediately returns success with the state
unchanged, independent of any unplaced components. -/
theorem c4_no_frontier_returns_success (f : Nat) (s : LayoutSolver)
    (h : get_next_constraint_involving_placed s = none) :
    advance_to_next_constraint (f + 1) s = (true, s) := by
  unfold advance_to_next_constraint
  simp only [tree_run, h]

/-- Witness for c4_no_frontier_returns_success at a concrete state
with an empty constraint set. -/
theorem c4_no_frontier_returns_success_witness :
    advance_to_next_constraint 5 (init_solver 60 40) = (true, init_solver 60 40) :=
  c4_no_frontier_returns_success 4 (init_solver 60 40) (by decide)

/-- Claim C9, counterexample.  Two runs of solve on the same input
diverge: with an all-ones rand stream component B lands at x = 0, with
an all-zeros stream at x = 2, because get_placement_options consumes a
rand bit to choose which wall-aligned candidate goes first. -/
theorem c9_counterexample :
    (solve_constraints (fun _ => true) 50 inpC9).1 = true ∧
    (solve_constraints (fun _ => false) 50 inpC9).1 = true ∧
    ((solve_constraints (fun _ => true) 50 inpC9).2.components.getD 1 default).placed_x = 0 ∧
    ((solve_constraints (fun _ => false) 50 inpC9).2.components.getD 1 default).placed_x = 2 := by
  decide

/-- Claim C9, amended.  The randomness sits only in the recursive
strategy: under the tree-based strategy (solver_type = 1) the result
of solve_constraints does not depend on the rand stream at all. -/
theorem c9_tree_strategy_deterministic (rb1 rb2 : Nat → Bool) (f : Nat) (s : LayoutSolver)
    (h : s.solver_type = 1) :
    solve_constraints rb1 f s = solve_constraints rb2 f s := by
  unfold solve_constraints
  rw [h]
  rfl

/-- Witness for c9_tree_strategy_deterministic on inpC9 under the
tree strategy. -/
theorem c9_tree_strategy_deterministic_witness :
    solve_constraints (fun _ => true) 50 inpC9tree =
      solve_constraints (fun _ => false) 50 inpC9tree :=
  c9_tree_strategy_deterministic (fun _ => true) (fun _ => false) 50 inpC9tree (by decide)

/-- Claim C10.  Registration past capacity or of unsupported input is
a silent no-op: add_component at 20 components returns the state
unchanged, and add_constraint at 50 constraints, on a line that does
not parse as TYPE(params), or on a non-ADJACENT type, returns the
state unchanged. -/
theorem c10_silent_noop :
    (∀ (s : LayoutSolver) (nm data : String),
      s.components.length ≥ 20 → add_component s nm data = s) ∧
    (∀ (s : LayoutSolver) (line : String),
      s.constraints.length ≥ 50 → add_constraint s line = s) ∧
    (∀ (s : LayoutSolver) (line : String),
      parse_type_params line = none → add_constraint s line = s) ∧
    (∀ (s : LayoutSolver) (line : String) (ty params : String),
      parse_type_params line = some (ty, params) → ty ≠ "ADJACENT" →
        add_constraint s line = s) := by
  refine ⟨?_, ?_, ?_, ?_⟩
  · intro s nm data h
    unfold add_component
    rw [if_pos h]
  · intro s line h
    unfold add_constraint
    rw [if_pos h]
  · intro s line h
    unfold add_constraint
    split
    · rfl
    · rw [h]
  · intro s line ty params h hne
    unfold add_constraint
    split
    · rfl
    · rw [h]
      dsimp only
      rw [if_neg hne]

/-- Witness for c10_silent_noop: a solver filled to both capacities by
the interface itself, a full-capacity add_component and
add_constraint, an unparsable line and a non-ADJACENT line. -/
theorem c10_silent_noop_witness :
    add_component sFullC10 "Extra" "Z" = sFullC10 ∧
    add_constraint sFullC10 "ADJACENT(c0, c1, n)" = sFullC10 ∧
    add_constraint (init_solver 60 40) "not a constraint" = init_solver 60 40 ∧
    add_constraint (init_solver 60 40) "NEARBY(A, B, n)" = init_solver 60 40 :=
  ⟨c10_silent_noop.1 sFullC10 "Extra" "Z" (by decide),
   c10_silent_noop.2.1 sFullC10 "ADJACENT(c0, c1, n)" (by decide),
   c10_silent_noop.2.2.1 (init_solver 60 40) "not a constraint" (by decide),
   c10_silent_noop.2.2.2 (init_solver 60 40) "NEARBY(A, B, n)" "NEARBY" "A, B, n"
     (by decide) (by decide)⟩

/-- Claim C8, counterexample.  On the geometrically contradictory
three-cycle the tree solver neither aborts at the cap nor fails: it
returns success (with the third constraint unsatisfied), because
advance_to_next_constraint never increments total_iterations and the
no-frontier exit reports success. -/
theorem c8_counterexample :
    (solve_constraints (fun _ => true) 200 inpC8).1 = true ∧
    adjacent_validate_constraint (solve_constraints (fun _ => true) 200 inpC8).2
      (inpC8.constraints.getD 2 default) = false := by
  decide

/-- Claim C8, amended.  The cap exists only in the recursive
strategy: place_component_recursive increments total_iterations per
visited node and aborts with failure once the counter exceeds
MAX_SOLVER_ITERATIONS, while advance_to_next_constraint leaves
total_iterations unchanged on every run, so the tree strategy has no
iteration cap. -/
theorem c8_cap_only_in_recursive_strategy :
    (∀ (rb : Nat → Bool) (f : Nat) (s : LayoutSolver) (depth : Int) (ci : Nat),
      get_next_component_intelligent s = some ci →
      s.total_iterations ≥ MAX_SOLVER_ITERATIONS →
      (place_component_recursive rb (f + 1) s depth).1 = false) ∧
    (∀ (f : Nat) (s : LayoutSolver),
      (advance_to_next_constraint f s).2.total_iterations = s.total_iterations) := by
  constructor
  · intro rb f s depth ci hnext hcap
    unfold place_component_recursive
    simp only [rec_run, hnext]
    rw [if_pos ?_]
    unfold MAX_SOLVER_ITERATIONS at hcap ⊢
    omega
  · intro f s
    exact tree_run_counter f (.advance s)

/-- Witness for c8_cap_only_in_recursive_strategy: the recursive
abort at a state sitting exactly at the cap, and counter preservation
on a concrete advance run. -/
theorem c8_cap_only_in_recursive_strategy_witness :
    (place_component_recursive (fun _ => true) 3 sIterCapC8 1).1 = false ∧
    (advance_to_next_constraint 5 (init_solver 60 40)).2.total_iterations =
      (init_solver 60 40).total_iterations :=
  ⟨c8_cap_only_in_recursive_strategy.1 (fun _ => true) 2 sIterCapC8 1 0
     (by decide) (by decide),
   c8_cap_only_in_recursive_strategy.2 5 (init_solver 60 40)⟩

/-- Claim C3, counterexample.  A failing trial of the option loop
does not restore the pre-trial state: on sPreC3 the trial of option
(50,-10) for constraint 2 fails, yet the queue of remaining
constraints shrinks from the pre-trial value and a grid cell changes,
because removed queue entries are never restored and remove_component
erases by raw coordinates while place_component wrote through an
origin shift. -/
theorem c3_counterexample :
    (tree_trial_step 40 sPreC3 2 3 optC3).1 = false ∧
    sPreC3.remaining_constraints = [2, 3] ∧
    (tree_trial_step 40 sPreC3 2 3 optC3).2.remaining_constraints = [3] ∧
    sPreC3.grid 50 50 = 'A' ∧
    (tree_trial_step 40 sPreC3 2 3 optC3).2.grid 50 50 = 'B' ∧
    (optC3.x, optC3.y) = ((50 : Int), (-10 : Int)) := by
  decide

/-- Claim C3, amended.  What a failing trial does restore is the
component list: if the solver is tidy (unplaced components carry the
reset coordinates) and the tried component is unplaced, a failing
trial returns the component list exactly as it was, while the queue
of remaining constraints is only a sublist of the pre-trial queue
(entries removed during the trial stay removed, and the grid is not
restored). -/
theorem c3_failed_trial_restores_components (f : Nat) (s : LayoutSolver) (k uc : Nat)
    (o : TreePlacementOption) (ht : tidy s)
    (hok : (s.components.getD uc default).is_placed = false)
    (hfail : (tree_trial_step f s k uc o).1 = false) :
    (tree_trial_step f s k uc o).2.components = s.components ∧
    List.Sublist (tree_trial_step f s k uc o).2.remaining_constraints
      s.remaining_constraints :=
  ⟨tree_run_components_of_fail f (.trial s k uc o) ht hok hfail,
   tree_run_queue_sublist f (.trial s k uc o)⟩

/-- Witness for c3_failed_trial_restores_components at the concrete
failing trial of the C3 scenario. -/
theorem c3_failed_trial_restores_components_witness :
    (tree_trial_step 40 sPreC3 2 3 optC3).2.components = sPreC3.components ∧
    List.Sublist (tree_trial_step 40 sPreC3 2 3 optC3).2.remaining_constraints
      sPreC3.remaining_constraints :=
  c3_failed_trial_restores_components 40 sPreC3 2 3 optC3
    (by unfold tidy; decide) (by decide) (by decide)

/-- Claim C6.  For an ADJACENT constraint with a resolved placed
reference, the generated candidate positions are exactly the spec's
single-direction sets (North, South, East, West), and for direction
Any their concatenation, as long as the direction lists fit under the
200-option cap (tile dimensions are at most 20, so the bounds hold for
every component the parser admits). -/
theorem c6_adjacent_candidate_positions (s : LayoutSolver) (c : DSLConstraint) (uc pi : Nat)
    (hpi : placed_ref_of s c uc = some pi)
    (hw : (s.components.getD uc default).width + (s.components.getD pi default).width ≤ 51)
    (hh : (s.components.getD uc default).height + (s.components.getD pi default).height ≤ 51) :
    (c.direction = 'n' →
      (generate_placement_options_for_constraint s c uc).map (fun o => (o.x, o.y)) =
        spec_north_candidates (s.components.getD pi default).placed_x
          (s.components.getD pi default).placed_y (s.components.getD pi default).width
          (s.components.getD uc default).width (s.components.getD uc default).height) ∧
    (c.direction = 's' →
      (generate_placement_options_for_constraint s c uc).map (fun o => (o.x, o.y)) =
        spec_south_candidates (s.components.getD pi default).placed_x
          (s.components.getD pi default).placed_y (s.components.getD pi default).width
          (s.components.getD pi default).height (s.components.getD uc default).width) ∧
    (c.direction = 'e' →
      (generate_placement_options_for_constraint s c uc).map (fun o => (o.x, o.y)) =
        spec_east_candidates (s.components.getD pi default).placed_x
          (s.components.getD pi default).placed_y (s.components.getD pi default).width
          (s.components.getD pi default).height (s.components.getD uc default).height) ∧
    (c.direction = 'w' →
      (generate_placement_options_for_constraint s c uc).map (fun o => (o.x, o.y)) =
        spec_west_candidates (s.components.getD pi default).placed_x
          (s.components.getD pi default).placed_y (s.components.getD pi default).height
          (s.components.getD uc default).width (s.components.getD uc default).height) ∧
    (c.direction = 'a' →
      (generate_placement_options_for_constraint s c uc).map (fun o => (o.x, o.y)) =
        spec_north_candidates (s.components.getD pi default).placed_x
          (s.components.getD pi default).placed_y (s.components.getD pi default).width
          (s.components.getD uc default).width (s.components.getD uc default).height ++
        spec_south_candidates (s.components.getD pi default).placed_x
          (s.components.getD pi default).placed_y (s.components.getD pi default).width
          (s.components.getD pi default).height (s.components.getD uc default).width ++
        spec_east_candidates (s.components.getD pi default).placed_x
          (s.components.getD pi default).placed_y (s.components.getD pi default).width
          (s.components.getD pi default).height (s.components.getD uc default).height ++
        spec_west_candidates (s.components.getD pi default).placed_x
          (s.components.getD pi default).placed_y (s.components.getD pi default).height
          (s.components.getD uc default).width (s.components.getD uc default).height) := by
  refine ⟨?_, ?_, ?_, ?_, ?_⟩
  · intro hd
    unfold generate_placement_options_for_constraint
    rw [hpi]
    dsimp only
    rw [hd]
    rw [if_pos (by decide), if_neg (by decide), if_neg (by decide), if_neg (by decide)]
    simp only [List.append_nil]
    rw [List.take_of_length_le (by simp [Function.comp_def] at hw hh ⊢; omega)]
    rw [List.map_map]
    unfold spec_north_candidates
    rfl
  · intro hd
    unfold generate_placement_options_for_constraint
    rw [hpi]
    dsimp only
    rw [hd]
    rw [if_neg (by decide), if_pos (by decide), if_neg (by decide), if_neg (by decide)]
    simp only [List.nil_append, List.append_nil]
    rw [List.take_of_length_le (by simp [Function.comp_def] at hw hh ⊢; omega)]
    rw [List.map_map]
    unfold spec_south_candidates
    rfl
  · intro hd
    unfold generate_placement_options_for_constraint
    rw [hpi]
    dsimp only
    rw [hd]
    rw [if_neg (by decide), if_neg (by decide), if_pos (by decide), if_neg (by decide)]
    simp only [List.nil_append, List.append_nil]
    rw [List.take_of_length_le (by simp [Function.comp_def] at hw hh ⊢; omega)]
    rw [List.map_map]
    unfold spec_east_candidates
    rfl
  · intro hd
    unfold generate_placement_options_for_constraint
    rw [hpi]
    dsimp only
    rw [hd]
    rw [if_neg (by decide), if_neg (by decide), if_neg (by decide), if_pos (by decide)]
    simp only [List.nil_append]
    rw [List.take_of_length_le (by simp [Function.comp_def] at hw hh ⊢; omega)]
    rw [List.map_map]
    unfold spec_west_candidates
    rfl
  · intro hd
    unfold generate_placement_options_for_constraint
    rw [hpi]
    dsimp only
    rw [hd]
    rw [if_pos (by decide), if_pos (by decide), if_pos (by decide), if_pos (by decide)]
    rw [List.take_of_length_le (by simp [Function.comp_def] at hw hh ⊢; omega)]
    simp only [List.map_append, List.map_map]
    unfold spec_north_candidates spec_south_candidates spec_east_candidates spec_west_candidates
    rfl

/-- Witness for c6_adjacent_candidate_positions at the concrete North
constraint of the C7 scenario (reference A placed at (50,50)). -/
theorem c6_adjacent_candidate_positions_witness :
    (generate_placement_options_for_constraint sC7 cC7 1).map (fun o => (o.x, o.y)) =
      spec_north_candidates (sC7.components.getD 0 default).placed_x
        (sC7.components.getD 0 default).placed_y (sC7.components.getD 0 default).width
        (sC7.components.getD 1 default).width (sC7.components.getD 1 default).height :=
  (c6_adjacent_candidate_positions sC7 cC7 1 0 (by decide) (by decide) (by decide)).1 (by decide)

/-- Claim C7, counterexample.  On the concrete North constraint of
sC7 both the flush candidate (50,49) and the centered candidate
(52,49) are generated, yet the preference score the tree solver
actually uses ranks them 10 against 15: a merely centered candidate
scores strictly higher than an edge-aligned one, inverting the claimed
order.  The claimed band values live only in adjacent_calculate_score
(100 against 90), which the option generation path never calls. -/
theorem c7_counterexample :
    ((generate_placement_options_for_constraint sC7 cC7 1).map
      (fun o => (o.x, o.y))).contains (50, 49) = true ∧
    ((generate_placement_options_for_constraint sC7 cC7 1).map
      (fun o => (o.x, o.y))).contains (52, 49) = true ∧
    calculate_preference_score sC7 1 cC7 50 49 = 10 ∧
    calculate_preference_score sC7 1 cC7 52 49 = 15 ∧
    adjacent_calculate_score (sC7.components.getD 1 default) 50 49 cC7
      (sC7.components.getD 0 default) = 100 ∧
    adjacent_calculate_score (sC7.components.getD 1 default) 52 49 cC7
      (sC7.components.getD 0 default) = 90 := by
  decide

/-- Claim C7, amended.  The banded order of the claim holds only in
adjacent_calculate_score: edge alignment scores 100, exact centering
90, and a disjoint placement scores 49 minus the signed gap expression
clamped below at 1 (non-increasing in the gap).  The score the tree
solver actually uses, calculate_preference_score, awards 10 per
aligned edge but 15 for near-centering, so every candidate centered
within one cell and not edge-aligned scores strictly higher than every
candidate aligned on the left edge only. -/
theorem c7_score_bands :
    (∀ (comp placed : Component) (c : DSLConstraint) (x y : Int),
      c.direction = 'n' →
      (x = placed.placed_x ∨
        x + (comp.width : Int) = placed.placed_x + (placed.width : Int)) →
      adjacent_calculate_score comp x y c placed = 100) ∧
    (∀ (comp placed : Component) (c : DSLConstraint) (x y : Int),
      c.direction = 'n' →
      x ≠ placed.placed_x →
      x + (comp.width : Int) ≠ placed.placed_x + (placed.width : Int) →
      (comp.width : Int) % 2 = (placed.width : Int) % 2 →
      x + (comp.width : Int) / 2 = placed.placed_x + (placed.width : Int) / 2 →
      adjacent_calculate_score comp x y c placed = 90) ∧
    (∀ (comp placed : Component) (c : DSLConstraint) (x y : Int),
      c.direction = 'n' →
      1 ≤ comp.width → 1 ≤ placed.width →
      (x + (comp.width : Int) ≤ placed.placed_x ∨
        placed.placed_x + (placed.width : Int) ≤ x) →
      adjacent_calculate_score comp x y c placed =
        (if 49 - (if x > placed.placed_x + (placed.width : Int)
                  then x - (placed.placed_x + (placed.width : Int))
                  else placed.placed_x - (x + (comp.width : Int))) < 1
         then 1
         else 49 - (if x > placed.placed_x + (placed.width : Int)
                    then x - (placed.placed_x + (placed.width : Int))
                    else placed.placed_x - (x + (comp.width : Int))))) ∧
    (∀ (s : LayoutSolver) (ci ri : Nat) (c : DSLConstraint) (x1 x2 y1 y2 : Int),
      (if c.component_a == (s.components.getD ci default).name
       then find_component s c.component_b
       else find_component s c.component_a) = some ri →
      (s.components.getD ri default).is_placed = true →
      c.direction = 'n' →
      x1 = (s.components.getD ri default).placed_x →
      x1 + ((s.components.getD ci default).width : Int) ≠
        (s.components.getD ri default).placed_x + ((s.components.getD ri default).width : Int) →
      ¬(|x1 + ((s.components.getD ci default).width : Int) / 2 -
          ((s.components.getD ri default).placed_x +
            ((s.components.getD ri default).width : Int) / 2)| ≤ 1) →
      x2 ≠ (s.components.getD ri default).placed_x →
      x2 + ((s.components.getD ci default).width : Int) ≠
        (s.components.getD ri default).placed_x + ((s.components.getD ri default).width : Int) →
      |x2 + ((s.components.getD ci default).width : Int) / 2 -
          ((s.components.getD ri default).placed_x +
            ((s.components.getD ri default).width : Int) / 2)| ≤ 1 →
      calculate_preference_score s ci c x1 y1 < calculate_preference_score s ci c x2 y2) := by
  refine ⟨?_, ?_, ?_, ?_⟩
  · intro comp placed c x y hd hflush
    rcases hflush with h1 | h2
    · simp [adjacent_calculate_score, hd, h1]
    · by_cases hl : x = placed.placed_x
      · simp [adjacent_calculate_score, hd, hl]
      · simp [adjacent_calculate_score, hd, hl, h2]
  · intro comp placed c x y hd h1 h2 hpar hc
    simp [adjacent_calculate_score, hd, h1, h2, hpar, hc]
  · intro comp placed c x y hd hw hpw hdisj
    have h1 : ¬ (x = placed.placed_x) := by rcases hdisj with h | h <;> omega
    have h2 : ¬ (x + (comp.width : Int) = placed.placed_x + (placed.width : Int)) := by
      rcases hdisj with h | h <;> omega
    have hc : ¬ (x + (comp.width : Int) / 2 = placed.placed_x + (placed.width : Int) / 2) := by
      rcases hdisj with h | h <;> omega
    have hoe : ¬ ((if x + (comp.width : Int) < placed.placed_x + (placed.width : Int)
                   then x + (comp.width : Int)
                   else placed.placed_x + (placed.width : Int)) >
                  (if x > placed.placed_x then x else placed.placed_x)) := by
      rcases hdisj with h | h <;> split_ifs <;> omega
    unfold adjacent_calculate_score
    dsimp only
    rw [hd]
    rw [if_neg (show ¬ (('n':Char) = 'e' ∨ ('n':Char) = 'w') by decide)]
    rw [if_pos (show (('n':Char) = 'n' ∨ ('n':Char) = 's') by decide)]
    rw [if_neg h1, if_neg h2]
    by_cases hpar : (comp.width : Int) % 2 = (placed.width : Int) % 2
    · rw [if_pos hpar, if_neg hc]
      rw [if_pos (show (0:Int) = 0 from rfl), if_neg hoe,
          if_neg (show ¬ ((0:Int) > 0) by decide)]
    · rw [if_neg hpar]
      rw [if_pos (show (0:Int) = 0 from rfl), if_neg hoe,
          if_neg (show ¬ ((0:Int) > 0) by decide)]
  · intro s ci ri c x1 x2 y1 y2 href hp hd ha1 ha2 ha3 hb1 hb2 hb3
    unfold calculate_preference_score
    dsimp only
    rw [href]
    dsimp only
    rw [hp]
    rw [if_neg (show ¬ ((!true) = true) by decide),
        if_neg (show ¬ ((!true) = true) by decide)]
    rw [hd]
    rw [if_neg (show ¬ (('n':Char) = 'e' ∨ ('n':Char) = 'w') by decide),
        if_neg (show ¬ (('n':Char) = 'e' ∨ ('n':Char) = 'w') by decide),
        if_pos (show (('n':Char) = 'n' ∨ ('n':Char) = 's') by decide),
        if_pos (show (('n':Char) = 'n' ∨ ('n':Char) = 's') by decide)]
    rw [if_pos ha1, if_neg ha2, if_neg ha3, if_neg hb1, if_neg hb2, if_pos hb3]
    decide

/-- Witness for c7_score_bands at the sC7 components: flush 100,
centered 90, disjoint at gap 3 by the clamp formula, and the
generator-path inversion 10 against 15. -/
theorem c7_score_bands_witness :
    adjacent_calculate_score (sC7.components.getD 1 default) 50 49 cC7
      (sC7.components.getD 0 default) = 100 ∧
    adjacent_calculate_score (sC7.components.getD 1 default) 52 49 cC7
      (sC7.components.getD 0 default) = 90 ∧
    adjacent_calculate_score (sC7.components.getD 1 default) 60 49 cC7
      (sC7.components.getD 0 default) =
      (if 49 - (if (60 : Int) > (sC7.components.getD 0 default).placed_x +
                    ((sC7.components.getD 0 default).width : Int)
                then 60 - ((sC7.components.getD 0 default).placed_x +
                    ((sC7.components.getD 0 default).width : Int))
                else (sC7.components.getD 0 default).placed_x -
                    (60 + ((sC7.components.getD 1 default).width : Int))) < 1
       then 1
       else 49 - (if (60 : Int) > (sC7.components.getD 0 default).placed_x +
                      ((sC7.components.getD 0 default).width : Int)
                  then 60 - ((sC7.components.getD 0 default).placed_x +
                      ((sC7.components.getD 0 default).width : Int))
                  else (sC7.components.getD 0 default).placed_x -
                      (60 + ((sC7.components.getD 1 default).width : Int)))) ∧
    calculate_preference_score sC7 1 cC7 50 49 < calculate_preference_score sC7 1 cC7 52 49 :=
  ⟨c7_score_bands.1 (sC7.components.getD 1 default) (sC7.components.getD 0 default) cC7 50 49
     (by decide) (Or.inl (by decide)),
   c7_score_bands.2.1 (sC7.components.getD 1 default) (sC7.components.getD 0 default) cC7 52 49
     (by decide) (by decide) (by decide) (by decide) (by decide),
   c7_score_bands.2.2.1 (sC7.components.getD 1 default) (sC7.components.getD 0 default) cC7 60 49
     (by decide) (by decide) (by decide) (Or.inr (by decide)),
   c7_score_bands.2.2.2 sC7 1 0 cC7 50 52 49 49 (by decide) (by decide) (by decide) (by decide)
     (by decide) (by decide) (by decide) (by decide) (by decide)⟩

/-- Claim C5, counterexample.  The write-erase round trip is not the
identity on the grid buffer: when a cell under the component footprint
already holds a character, place_component overwrites it and
remove_component blanks it, so the original character is lost. -/
theorem c5_counterexample :
    sC5.grid 0 0 = 'X' ∧
    (remove_component (place_component sC5 0 0 0) 0).grid 0 0 = ' ' := by
  decide

/-- Claim C5, amended.  The round trip is the identity exactly on
blank ground: if the placement box stays inside the tracked bounds (so
no origin-shifting expansion fires) and every cell under the footprint
is blank, erasing after writing restores every grid cell. -/
theorem c5_round_trip (s : LayoutSolver) (ci : Nat) (x y : Int) (comp : Component)
    (hget : s.components.get? ci = some comp)
    (hx1 : s.grid_min_x ≤ x) (hy1 : s.grid_min_y ≤ y)
    (hx2 : x + (comp.width : Int) ≤ s.grid_min_x + s.grid_width)
    (hy2 : y + (comp.height : Int) ≤ s.grid_min_y + s.grid_height)
    (hblank : ∀ j i : Int,
      x ≤ i → i < x + (comp.width : Int) → y ≤ j → j < y + (comp.height : Int) →
      s.grid j i = ' ') :
    ∀ j i : Int, (remove_component (place_component s ci x y) ci).grid j i = s.grid j i := by
  have hnm : ¬ (((if x < s.grid_min_x then x else s.grid_min_x) ≠ s.grid_min_x) ∨
      ((if y < s.grid_min_y then y else s.grid_min_y) ≠ s.grid_min_y) ∨
      ((if x + (comp.width : Int) - 1 > s.grid_min_x + s.grid_width - 1
          then x + (comp.width : Int) - 1
          else s.grid_min_x + s.grid_width - 1) -
        (if x < s.grid_min_x then x else s.grid_min_x) + 1 ≠ s.grid_width) ∨
      ((if y + (comp.height : Int) - 1 > s.grid_min_y + s.grid_height - 1
          then y + (comp.height : Int) - 1
          else s.grid_min_y + s.grid_height - 1) -
        (if y < s.grid_min_y then y else s.grid_min_y) + 1 ≠ s.grid_height)) := by
    split_ifs <;> omega
  have hexp : expand_grid_for_component s ci x y = s := by
    unfold expand_grid_for_component
    rw [hget]
    dsimp only
    rw [if_neg hnm]
  have hlt : ci < s.components.length := (List.get?_eq_some.mp hget).1
  have hplace : place_component s ci x y =
      { s with
        components := s.components.set ci
          { comp with is_placed := true, placed_x := x, placed_y := y }
        grid := fun j i =>
          if 0 ≤ i ∧ i < 200 ∧ 0 ≤ j ∧ j < 200 ∧
             x ≤ i ∧ i < x + (comp.width : Int) ∧ y ≤ j ∧ j < y + (comp.height : Int) ∧
             tileAt comp (j - y).toNat (i - x).toNat ≠ ' ' then
            tileAt comp (j - y).toNat (i - x).toNat
          else s.grid j i } := by
    unfold place_component
    rw [hget]
    dsimp only
    rw [hexp]
  intro j i
  rw [hplace]
  unfold remove_component
  dsimp only
  rw [list_get?_set_self s.components ci _ hlt]
  dsimp only
  rw [if_pos rfl]
  have ht : ∀ r k : Nat,
      tileAt { comp with is_placed := true, placed_x := x, placed_y := y } r k =
        tileAt comp r k := fun r k => rfl
  dsimp only
  simp only [ht]
  by_cases hP : 0 ≤ i ∧ i < 200 ∧ 0 ≤ j ∧ j < 200 ∧
      x ≤ i ∧ i < x + (comp.width : Int) ∧ y ≤ j ∧ j < y + (comp.height : Int) ∧
      tileAt comp (j - y).toNat (i - x).toNat ≠ ' '
  · rw [if_pos hP]
    exact (hblank j i hP.2.2.2.2.1 hP.2.2.2.2.2.1 hP.2.2.2.2.2.2.1 hP.2.2.2.2.2.2.2.1).symm
  · rw [if_neg hP, if_neg hP]

/-- Witness for c5_round_trip: a blank solver, component 0 written and
erased at the origin, checked at the corner cell. -/
theorem c5_round_trip_witness :
    (remove_component
      (place_component (add_component (init_solver 60 40) "B" "B") 0 0 0) 0).grid 0 0 =
      (add_component (init_solver 60 40) "B" "B").grid 0 0 :=
  c5_round_trip (add_component (init_solver 60 40) "B" "B") 0 0 0
    ((add_component (init_solver 60 40) "B" "B").components.getD 0 default)
    (by decide) (by decide) (by decide) (by decide) (by decide)
    (fun j i _ _ _ _ => rfl) 0 0
theorem list_getD_set_self {α : Type} [Inhabited α] (l : List α) (i : Nat) (a : α)
    (h : i < l.length) : (l.set i a).getD i default = a := by
  induction l generalizing i with
  | nil => simp at h
  | cons b t ih =>
    cases i with
    | zero => rfl
    | succ n =>
      simp only [List.set, List.getD, List.get?]
      exact ih n (by simpa using h)

theorem list_getD_set_ne {α : Type} [Inhabited α] (l : List α) (i j : Nat) (a : α)
    (h : i ≠ j) : (l.set i a).getD j default = l.getD j default := by
  induction l generalizing i j with
  | nil => rfl
  | cons b t ih =>
    cases i with
    | zero =>
      cases j with
      | zero => exact absurd rfl h
      | succ m => rfl
    | succ n =>
      cases j with
      | zero => rfl
      | succ m =>
        simp only [List.set, List.getD, List.get?]
        exact ih n m (fun he => h (by rw [he]))

theorem overlap_spec (c1 : Component) (x1 y1 : Int) (c2 : Component) (x2 y2 : Int) :
    has_character_overlap c1 x1 y1 c2 x2 y2 = true ↔
      ∃ r1, r1 < c1.height ∧ ∃ k1, k1 < c1.width ∧
        (tileAt c1 r1 k1 ≠ ' ' ∧ ∃ r2, r2 < c2.height ∧ ∃ k2, k2 < c2.width ∧
          (tileAt c2 r2 k2 ≠ ' ' ∧ x1 + (k1 : Int) = x2 + (k2 : Int) ∧
            y1 + (r1 : Int) = y2 + (r2 : Int))) := by
  unfold has_character_overlap
  simp [List.any_eq_true, List.mem_range, Bool.and_eq_true, decide_eq_true_eq, and_assoc]

theorem overlap_symm (c1 : Component) (x1 y1 : Int) (c2 : Component) (x2 y2 : Int) :
    has_character_overlap c1 x1 y1 c2 x2 y2 = has_character_overlap c2 x2 y2 c1 x1 y1 := by
  rcases h1 : has_character_overlap c1 x1 y1 c2 x2 y2 with _ | _ <;>
    rcases h2 : has_character_overlap c2 x2 y2 c1 x1 y1 with _ | _
  · rfl
  · exfalso
    rcases (overlap_spec c2 x2 y2 c1 x1 y1).mp h2 with
      ⟨r2, hr2, k2, hk2, ht2, r1, hr1, k1, hk1, ht1, hx, hy⟩
    have : has_character_overlap c1 x1 y1 c2 x2 y2 = true :=
      (overlap_spec c1 x1 y1 c2 x2 y2).mpr
        ⟨r1, hr1, k1, hk1, ht1, r2, hr2, k2, hk2, ht2, hx.symm, hy.symm⟩
    rw [h1] at this
    exact Bool.noConfusion this
  · exfalso
    rcases (overlap_spec c1 x1 y1 c2 x2 y2).mp h1 with
      ⟨r1, hr1, k1, hk1, ht1, r2, hr2, k2, hk2, ht2, hx, hy⟩
    have : has_character_overlap c2 x2 y2 c1 x1 y1 = true :=
      (overlap_spec c2 x2 y2 c1 x1 y1).mpr
        ⟨r2, hr2, k2, hk2, ht2, r1, hr1, k1, hk1, ht1, hx.symm, hy.symm⟩
    rw [h2] at this
    exact Bool.noConfusion this
  · rfl

theorem overlap_update_left (c1 : Component) (b : Bool) (px py : Int) (x1 y1 : Int)
    (c2 : Component) (x2 y2 : Int) :
    has_character_overlap { c1 with is_placed := b, placed_x := px, placed_y := py } x1 y1
        c2 x2 y2 =
      has_character_overlap c1 x1 y1 c2 x2 y2 := rfl



theorem ipv_snd_eq_expand (s : LayoutSolver) (ci : Nat) (x y : Int) (comp : Component)
    (hget : s.components.get? ci = some comp) :
    (is_placement_valid s ci x y).2 = expand_grid_for_component s ci x y := by
  unfold is_placement_valid
  rw [hget]

theorem ipv_true_no_overlap (s : LayoutSolver) (ci : Nat) (x y : Int)
    (hv : (is_placement_valid s ci x y).1 = true) :
    ∀ i, i < s.components.length → i ≠ ci →
      (s.components.getD i default).is_placed = true →
      has_character_overlap (s.components.getD ci default) x y
        (s.components.getD i default)
        (s.components.getD i default).placed_x
        (s.components.getD i default).placed_y = false := by
  intro i hi hne hplaced
  unfold is_placement_valid at hv
  rcases hget : s.components.get? ci with _ | comp
  · rw [hget] at hv
    exact Bool.noConfusion hv
  · rw [hget] at hv
    dsimp only at hv
    rw [Bool.not_eq_eq_eq_not, Bool.not_true] at hv
    have hcomps := expand_grid_components s ci x y
    rw [List.any_eq_false] at hv
    have hmem : i ∈ List.range (expand_grid_for_component s ci x y).components.length := by
      rw [hcomps]
      exact List.mem_range.mpr hi
    have := hv i hmem
    rw [hcomps] at this
    rcases hb : has_character_overlap (s.components.getD ci default) x y
        (s.components.getD i default) (s.components.getD i default).placed_x
        (s.components.getD i default).placed_y with _ | _
    · rfl
    · exfalso
      apply this
      show (decide (i ≠ ci) && (s.components.getD i default).is_placed &&
          has_character_overlap (s.components.getD ci default) x y
            (s.components.getD i default) (s.components.getD i default).placed_x
            (s.components.getD i default).placed_y) = true
      rw [hplaced, hb]
      simp [hne]

theorem expand_grid_noop (s : LayoutSolver) (ci : Nat) (x y : Int) (comp : Component)
    (hget : s.components.get? ci = some comp)
    (hminx : s.grid_min_x = 0) (hminy : s.grid_min_y = 0)
    (hx : 0 ≤ x) (hy : 0 ≤ y)
    (hxw : x + (comp.width : Int) ≤ s.grid_width)
    (hyh : y + (comp.height : Int) ≤ s.grid_height) :
    expand_grid_for_component s ci x y = s := by
  have hnm : ¬ (((if x < s.grid_min_x then x else s.grid_min_x) ≠ s.grid_min_x) ∨
      ((if y < s.grid_min_y then y else s.grid_min_y) ≠ s.grid_min_y) ∨
      ((if x + (comp.width : Int) - 1 > s.grid_min_x + s.grid_width - 1
          then x + (comp.width : Int) - 1
          else s.grid_min_x + s.grid_width - 1) -
        (if x < s.grid_min_x then x else s.grid_min_x) + 1 ≠ s.grid_width) ∨
      ((if y + (comp.height : Int) - 1 > s.grid_min_y + s.grid_height - 1
          then y + (comp.height : Int) - 1
          else s.grid_min_y + s.grid_height - 1) -
        (if y < s.grid_min_y then y else s.grid_min_y) + 1 ≠ s.grid_height)) := by
    split_ifs <;> omega
  unfold expand_grid_for_component
  rw [hget]
  dsimp only
  rw [if_neg hnm]

theorem expand_grid_nn (s : LayoutSolver) (ci : Nat) (x y : Int) (comp : Component)
    (hget : s.components.get? ci = some comp)
    (hminx : s.grid_min_x = 0) (hminy : s.grid_min_y = 0)
    (hw0 : 0 ≤ s.grid_width) (hw200 : s.grid_width ≤ 200)
    (hh0 : 0 ≤ s.grid_height) (hh200 : s.grid_height ≤ 200)
    (hx : 0 ≤ x) (hy : 0 ≤ y)
    (hxw : x + (comp.width : Int) ≤ 200) (hyh : y + (comp.height : Int) ≤ 200) :
    (expand_grid_for_component s ci x y).components = s.components ∧
    (expand_grid_for_component s ci x y).grid_min_x = 0 ∧
    (expand_grid_for_component s ci x y).grid_min_y = 0 ∧
    s.grid_width ≤ (expand_grid_for_component s ci x y).grid_width ∧
    (expand_grid_for_component s ci x y).grid_width ≤ 200 ∧
    s.grid_height ≤ (expand_grid_for_component s ci x y).grid_height ∧
    (expand_grid_for_component s ci x y).grid_height ≤ 200 ∧
    x + (comp.width : Int) ≤ (expand_grid_for_component s ci x y).grid_width ∧
    y + (comp.height : Int) ≤ (expand_grid_for_component s ci x y).grid_height ∧
    (∀ j i : Int, 0 ≤ j → j < s.grid_height → 0 ≤ i → i < s.grid_width →
      (expand_grid_for_component s ci x y).grid j i = s.grid j i) := by
  unfold expand_grid_for_component
  rw [hget]
  dsimp only
  rw [hminx, hminy]
  have hnx : ¬ (x < (0:Int)) := not_lt.mpr hx
  have hny : ¬ (y < (0:Int)) := not_lt.mpr hy
  rw [if_neg hnx, if_neg hny]
  by_cases hC : ((0:Int) ≠ 0) ∨ ((0:Int) ≠ 0) ∨
      ((if x + (comp.width : Int) - 1 > 0 + s.grid_width - 1
          then x + (comp.width : Int) - 1
          else 0 + s.grid_width - 1) - 0 + 1 ≠ s.grid_width) ∨
      ((if y + (comp.height : Int) - 1 > 0 + s.grid_height - 1
          then y + (comp.height : Int) - 1
          else 0 + s.grid_height - 1) - 0 + 1 ≠ s.grid_height)
  · rw [if_pos hC]
    refine ⟨rfl, rfl, rfl, ?_, ?_, ?_, ?_, ?_, ?_, ?_⟩
    · show s.grid_width ≤ _ - 0 + 1
      split_ifs <;> omega
    · show _ - 0 + 1 ≤ 200
      split_ifs <;> omega
    · show s.grid_height ≤ _ - 0 + 1
      split_ifs <;> omega
    · show _ - 0 + 1 ≤ 200
      split_ifs <;> omega
    · show x + (comp.width : Int) ≤ _ - 0 + 1
      split_ifs <;> omega
    · show y + (comp.height : Int) ≤ _ - 0 + 1
      split_ifs <;> omega
    · intro j i hj0 hjh hi0 hiw
      show (if 0 ≤ j ∧ j < 200 ∧ 0 ≤ i ∧ i < 200 ∧
          0 ≤ j + 0 - 0 ∧ j + 0 - 0 < s.grid_height ∧
          0 ≤ i + 0 - 0 ∧ i + 0 - 0 < s.grid_width then
          s.grid (j + 0 - 0) (i + 0 - 0) else ' ') = s.grid j i
      rw [if_pos (by refine ⟨?_, ?_, ?_, ?_, ?_, ?_, ?_, ?_⟩ <;> omega)]
      simp only [add_zero, sub_zero]
  · rw [if_neg hC]
    have h3 : (if x + (comp.width : Int) - 1 > 0 + s.grid_width - 1
        then x + (comp.width : Int) - 1
        else 0 + s.grid_width - 1) - 0 + 1 = s.grid_width := by
      by_contra hne
      exact hC (Or.inr (Or.inr (Or.inl hne)))
    have h4 : (if y + (comp.height : Int) - 1 > 0 + s.grid_height - 1
        then y + (comp.height : Int) - 1
        else 0 + s.grid_height - 1) - 0 + 1 = s.grid_height := by
      by_contra hne
      exact hC (Or.inr (Or.inr (Or.inr hne)))
    have h5 : x + (comp.width : Int) ≤ s.grid_width := by
      revert h3
      split_ifs <;> omega
    have h6 : y + (comp.height : Int) ≤ s.grid_height := by
      revert h4
      split_ifs <;> omega
    exact ⟨rfl, hminx, hminy, le_refl _, hw200, le_refl _, hh200, h5, h6,
      fun j i _ _ _ _ => rfl⟩

theorem tileAt_update (c : Component) (b : Bool) (px py : Int) (r k : Nat) :
    tileAt { c with is_placed := b, placed_x := px, placed_y := py } r k = tileAt c r k := rfl

theorem overlap_update_right (c1 : Component) (x1 y1 : Int) (c2 : Component) (b : Bool)
    (px py x2 y2 : Int) :
    has_character_overlap c1 x1 y1 { c2 with is_placed := b, placed_x := px, placed_y := py }
        x2 y2 =
      has_character_overlap c1 x1 y1 c2 x2 y2 := rfl

theorem place_component_strong (s : LayoutSolver) (ci : Nat) (x y : Int) (comp : Component)
    (hget : s.components.get? ci = some comp)
    (hinv : strong_invariant s)
    (hx : 0 ≤ x) (hy : 0 ≤ y)
    (hxw2 : x + (comp.width : Int) ≤ s.grid_width)
    (hyh2 : y + (comp.height : Int) ≤ s.grid_height)
    (hnov : ∀ i, i < s.components.length → i ≠ ci →
      (s.components.getD i default).is_placed = true →
      has_character_overlap comp x y (s.components.getD i default)
        (s.components.getD i default).placed_x
        (s.components.getD i default).placed_y = false) :
    strong_invariant (place_component s ci x y) := by
  obtain ⟨hminx, hminy, hw0, hw200, hh0, hh200, hwp, hra, hno⟩ := hinv
  have hlt : ci < s.components.length := (List.get?_eq_some.mp hget).1
  have hexp : expand_grid_for_component s ci x y = s :=
    expand_grid_noop s ci x y comp hget hminx hminy hx hy hxw2 hyh2
  have hplace : place_component s ci x y =
      { s with
        components := s.components.set ci
          { comp with is_placed := true, placed_x := x, placed_y := y }
        grid := fun j i =>
          if 0 ≤ i ∧ i < 200 ∧ 0 ≤ j ∧ j < 200 ∧
             x ≤ i ∧ i < x + (comp.width : Int) ∧ y ≤ j ∧ j < y + (comp.height : Int) ∧
             tileAt comp (j - y).toNat (i - x).toNat ≠ ' ' then
            tileAt comp (j - y).toNat (i - x).toNat
          else s.grid j i } := by
    unfold place_component
    rw [hget]
    dsimp only
    rw [hexp]
  rw [hplace]
  refine ⟨hminx, hminy, hw0, hw200, hh0, hh200, ?_, ?_, ?_⟩
  · intro idx hmem hplaced
    dsimp only at hmem hplaced ⊢
    rw [List.mem_range, List.length_set] at hmem
    by_cases h : idx = ci
    · subst h
      rw [list_getD_set_self s.components idx _ hmem] at hplaced ⊢
      dsimp only
      omega
    · rw [list_getD_set_ne s.components ci idx _ (fun he => h he.symm)] at hplaced ⊢
      exact hwp idx (List.mem_range.mpr hmem) hplaced
  · intro idx hmem hplaced dy hdy dx hdx htile
    dsimp only at hmem hplaced hdy hdx htile ⊢
    rw [List.mem_range, List.length_set] at hmem
    by_cases h : idx = ci
    · subst h
      rw [list_getD_set_self s.components idx _ hmem] at hplaced hdy hdx htile ⊢
      dsimp only at hdy hdx htile ⊢
      simp only [tileAt_update] at htile ⊢
      rw [List.mem_range] at hdy hdx
      have e1 : ((y + (dy : Int)) - y).toNat = dy := by omega
      have e2 : ((x + (dx : Int)) - x).toNat = dx := by omega
      rw [e1, e2]
      have hcond : 0 ≤ x + (dx : Int) ∧ x + (dx : Int) < 200 ∧
          0 ≤ y + (dy : Int) ∧ y + (dy : Int) < 200 ∧
          x ≤ x + (dx : Int) ∧ x + (dx : Int) < x + (comp.width : Int) ∧
          y ≤ y + (dy : Int) ∧ y + (dy : Int) < y + (comp.height : Int) ∧
          tileAt comp dy dx ≠ ' ' := by
        refine ⟨by omega, by omega, by omega, by omega, by omega, by omega, by omega,
          by omega, htile⟩
      rw [if_pos hcond]
    · rw [list_getD_set_ne s.components ci idx _ (fun he => h he.symm)]
        at hplaced hdy hdx htile ⊢
      rw [List.mem_range] at hdy hdx
      have hguard : ¬ (0 ≤ (s.components.getD idx default).placed_x + (dx : Int) ∧
          (s.components.getD idx default).placed_x + (dx : Int) < 200 ∧
          0 ≤ (s.components.getD idx default).placed_y + (dy : Int) ∧
          (s.components.getD idx default).placed_y + (dy : Int) < 200 ∧
          x ≤ (s.components.getD idx default).placed_x + (dx : Int) ∧
          (s.components.getD idx default).placed_x + (dx : Int) < x + (comp.width : Int) ∧
          y ≤ (s.components.getD idx default).placed_y + (dy : Int) ∧
          (s.components.getD idx default).placed_y + (dy : Int) < y + (comp.height : Int) ∧
          tileAt comp (((s.components.getD idx default).placed_y + (dy : Int)) - y).toNat
            (((s.components.getD idx default).placed_x + (dx : Int)) - x).toNat ≠ ' ') := by
        intro hg
        obtain ⟨hg1, hg2, hg3, hg4, hg5, hg6, hg7, hg8, hg9⟩ := hg
        have : has_character_overlap comp x y (s.components.getD idx default)
            (s.components.getD idx default).placed_x
            (s.components.getD idx default).placed_y = true := by
          rw [overlap_spec]
          refine ⟨(((s.components.getD idx default).placed_y + (dy : Int)) - y).toNat,
            by omega,
            (((s.components.getD idx default).placed_x + (dx : Int)) - x).toNat,
            by omega, hg9, dy, hdy, dx, hdx, htile, by omega, by omega⟩
        rw [hnov idx hmem h hplaced] at this
        exact Bool.noConfusion this
      rw [if_neg hguard]
      exact hra idx (List.mem_range.mpr hmem) hplaced dy (List.mem_range.mpr hdy)
        dx (List.mem_range.mpr hdx) htile
  · intro i hmi j hmj hne hpi hpj
    dsimp only at hmi hmj hpi hpj ⊢
    rw [List.mem_range, List.length_set] at hmi hmj
    by_cases hi : i = ci <;> by_cases hj : j = ci
    · exact absurd (hi.trans hj.symm) hne
    · subst hi
      rw [list_getD_set_self s.components i _ hmi] at hpi ⊢
      rw [list_getD_set_ne s.components i j _ (fun he => hj he.symm)] at hpj ⊢
      dsimp only
      rw [overlap_update_left]
      exact hnov j hmj (fun he => hj he) hpj
    · subst hj
      rw [list_getD_set_self s.components j _ hmj] at hpj ⊢
      rw [list_getD_set_ne s.components j i _ (fun he => hi he.symm)] at hpi ⊢
      dsimp only
      rw [overlap_update_right, overlap_symm]
      exact hnov i hmi (fun he => hi he) hpi
    · rw [list_getD_set_ne s.components ci i _ (fun he => hi he.symm)] at hpi ⊢
      rw [list_getD_set_ne s.components ci j _ (fun he => hj he.symm)] at hpj ⊢
      exact hno i (List.mem_range.mpr hmi) j (List.mem_range.mpr hmj) hne hpi hpj

theorem remove_component_strong (s : LayoutSolver) (ci : Nat)
    (hinv : strong_invariant s) : strong_invariant (remove_component s ci) := by
  obtain ⟨hminx, hminy, hw0, hw200, hh0, hh200, hwp, hra, hno⟩ := hinv
  unfold remove_component
  rcases hget : s.components.get? ci with _ | comp
  · exact ⟨hminx, hminy, hw0, hw200, hh0, hh200, hwp, hra, hno⟩
  · dsimp only
    have hgd : s.components.getD ci default = comp := list_getD_of_get? _ _ _ hget
    have hlt : ci < s.components.length := (List.get?_eq_some.mp hget).1
    by_cases hp : comp.is_placed = true
    · rw [if_pos hp]
      refine ⟨hminx, hminy, hw0, hw200, hh0, hh200, ?_, ?_, ?_⟩
      · intro idx hmem hpl
        dsimp only at hmem hpl ⊢
        rw [List.mem_range, List.length_set] at hmem
        by_cases h : idx = ci
        · subst h
          rw [list_getD_set_self s.components idx _ hmem] at hpl
          dsimp only at hpl
          exact Bool.noConfusion hpl
        · rw [list_getD_set_ne s.components ci idx _ (fun he => h he.symm)] at hpl ⊢
          exact hwp idx (List.mem_range.mpr hmem) hpl
      · intro idx hmem hpl dy hdy dx hdx htile
        dsimp only at hmem hpl hdy hdx htile ⊢
        rw [List.mem_range, List.length_set] at hmem
        by_cases h : idx = ci
        · subst h
          rw [list_getD_set_self s.components idx _ hmem] at hpl
          dsimp only at hpl
          exact Bool.noConfusion hpl
        · rw [list_getD_set_ne s.components ci idx _ (fun he => h he.symm)]
            at hpl hdy hdx htile ⊢
          rw [List.mem_range] at hdy hdx
          have hnoij := hno ci (List.mem_range.mpr hlt) idx (List.mem_range.mpr hmem)
            (fun he => h he.symm) (by rw [hgd]; exact hp) hpl
          rw [hgd] at hnoij
          have hguard : ¬ (0 ≤ (s.components.getD idx default).placed_x + (dx : Int) ∧
              (s.components.getD idx default).placed_x + (dx : Int) < 200 ∧
              0 ≤ (s.components.getD idx default).placed_y + (dy : Int) ∧
              (s.components.getD idx default).placed_y + (dy : Int) < 200 ∧
              comp.placed_x ≤ (s.components.getD idx default).placed_x + (dx : Int) ∧
              (s.components.getD idx default).placed_x + (dx : Int) <
                comp.placed_x + (comp.width : Int) ∧
              comp.placed_y ≤ (s.components.getD idx default).placed_y + (dy : Int) ∧
              (s.components.getD idx default).placed_y + (dy : Int) <
                comp.placed_y + (comp.height : Int) ∧
              tileAt comp
                (((s.components.getD idx default).placed_y + (dy : Int)) -
                  comp.placed_y).toNat
                (((s.components.getD idx default).placed_x + (dx : Int)) -
                  comp.placed_x).toNat ≠ ' ') := by
            intro hg
            obtain ⟨hg1, hg2, hg3, hg4, hg5, hg6, hg7, hg8, hg9⟩ := hg
            have : has_character_overlap comp comp.placed_x comp.placed_y
                (s.components.getD idx default)
                (s.components.getD idx default).placed_x
                (s.components.getD idx default).placed_y = true := by
              rw [overlap_spec]
              refine ⟨(((s.components.getD idx default).placed_y + (dy : Int)) -
                  comp.placed_y).toNat, by omega,
                (((s.components.getD idx default).placed_x + (dx : Int)) -
                  comp.placed_x).toNat, by omega, hg9,
                dy, hdy, dx, hdx, htile, by omega, by omega⟩
            rw [hnoij] at this
            exact Bool.noConfusion this
          rw [if_neg hguard]
          exact hra idx (List.mem_range.mpr hmem) hpl dy (List.mem_range.mpr hdy)
            dx (List.mem_range.mpr hdx) htile
      · intro i hmi j hmj hne hpi hpj
        dsimp only at hmi hmj hpi hpj ⊢
        rw [List.mem_range, List.length_set] at hmi hmj
        by_cases hi : i = ci
        · subst hi
          rw [list_getD_set_self s.components i _ hmi] at hpi
          dsimp only at hpi
          exact Bool.noConfusion hpi
        · by_cases hj : j = ci
          · subst hj
            rw [list_getD_set_self s.components j _ hmj] at hpj
            dsimp only at hpj
            exact Bool.noConfusion hpj
          · rw [list_getD_set_ne s.components ci i _ (fun he => hi he.symm)] at hpi ⊢
            rw [list_getD_set_ne s.components ci j _ (fun he => hj he.symm)] at hpj ⊢
            exact hno i (List.mem_range.mpr hmi) j (List.mem_range.mpr hmj) hne hpi hpj
    · rw [if_neg hp]
      exact ⟨hminx, hminy, hw0, hw200, hh0, hh200, hwp, hra, hno⟩

theorem initial_state_strong (comps : List Component) (w h : Int)
    (hunpl : ∀ c ∈ comps, c.is_placed = false)
    (hw0 : 0 ≤ w) (hw : w ≤ 200) (hh0 : 0 ≤ h) (hh : h ≤ 200) :
    strong_invariant (initial_state comps w h) := by
  have hun : ∀ ci, ci ∈ List.range (initial_state comps w h).components.length →
      ((initial_state comps w h).components.getD ci default).is_placed = true → False := by
    intro ci hmem hpl
    rw [List.mem_range] at hmem
    rcases hc : (initial_state comps w h).components.get? ci with _ | c
    · rw [List.get?_eq_none] at hc
      omega
    · have hcd := list_getD_of_get? _ _ _ hc
      rw [hcd] at hpl
      have hcm : c ∈ comps := List.get?_mem hc
      rw [hunpl c hcm] at hpl
      exact Bool.noConfusion hpl
  refine ⟨rfl, rfl, hw0, hw, hh0, hh, ?_, ?_, ?_⟩
  · intro ci hmem hpl
    exact (hun ci hmem hpl).elim
  · intro ci hmem hpl dy _ dx _ _
    exact (hun ci hmem hpl).elim
  · intro i hmi j _ _ hpi _
    exact (hun i hmi hpi).elim

theorem strong_to_core (s : LayoutSolver) (hinv : strong_invariant s) : core_invariant s := by
  obtain ⟨hminx, hminy, _, _, _, _, _, hra, hno⟩ := hinv
  refine ⟨?_, hno⟩
  intro ci hmem hpl dy hdy dx hdx htile
  have hval := hra ci hmem hpl dy hdy dx hdx htile
  unfold gridAtWorld
  rw [hminx, hminy, sub_zero, sub_zero]
  exact hval

theorem strong_of_reachableNN (s : LayoutSolver) (h : SolverReachableNN s) :
    strong_invariant s := by
  induction h with
  | init comps w h hunpl hw0 hw hh0 hh =>
    exact initial_state_strong comps w h hunpl hw0 hw hh0 hh
  | place s ci x y hs hok hx hy hxw hyh ih =>
    have hipv := tree_place_fst_true_ipv s ci x y hok
    obtain ⟨comp, hget⟩ := ipv_fst_true_get s ci x y hipv
    have hgd : s.components.getD ci default = comp := list_getD_of_get? _ _ _ hget
    rw [tree_place_fst_true_snd s ci x y hok, ipv_snd_eq_expand s ci x y comp hget]
    obtain ⟨hminx, hminy, hw0, hw200, hh0, hh200, hwp, hra, hno⟩ := ih
    have hxw' : x + (comp.width : Int) ≤ 200 := by rw [hgd] at hxw; exact hxw
    have hyh' : y + (comp.height : Int) ≤ 200 := by rw [hgd] at hyh; exact hyh
    obtain ⟨hec, hem1, hem2, hwmono, hew200, hhmono, heh200, hexw, heyh, hegrid⟩ :=
      expand_grid_nn s ci x y comp hget hminx hminy hw0 hw200 hh0 hh200 hx hy hxw' hyh'
    set s1 := expand_grid_for_component s ci x y with hs1
    have hinv1 : strong_invariant s1 := by
      refine ⟨hem1, hem2, by omega, hew200, by omega, heh200, ?_, ?_, ?_⟩
      · intro idx hmem hpl
        rw [hec] at hmem hpl
        obtain ⟨h1, h2, h3, h4⟩ := hwp idx hmem hpl
        rw [hec]
        exact ⟨h1, by omega, h3, by omega⟩
      · intro idx hmem hpl dy hdy dx hdx htile
        rw [hec] at hmem hpl hdy hdx htile ⊢
        obtain ⟨h1, h2, h3, h4⟩ := hwp idx hmem hpl
        rw [List.mem_range] at hdy hdx
        rw [hegrid ((s.components.getD idx default).placed_y + (dy : Int))
            ((s.components.getD idx default).placed_x + (dx : Int))
            (by omega) (by omega) (by omega) (by omega)]
        exact hra idx hmem hpl dy (List.mem_range.mpr hdy) dx (List.mem_range.mpr hdx) htile
      · intro i hmi j hmj hne hpi hpj
        rw [hec] at hmi hmj hpi hpj ⊢
        exact hno i hmi j hmj hne hpi hpj
    have hget1 : s1.components.get? ci = some comp := by rw [hec]; exact hget
    have hnov : ∀ i, i < s1.components.length → i ≠ ci →
        (s1.components.getD i default).is_placed = true →
        has_character_overlap comp x y (s1.components.getD i default)
          (s1.components.getD i default).placed_x
          (s1.components.getD i default).placed_y = false := by
      intro i hi hne hpl
      rw [hec] at hi hpl ⊢
      have := ipv_true_no_overlap s ci x y hipv i hi hne hpl
      rw [hgd] at this
      exact this
    exact place_component_strong s1 ci x y comp hget1 hinv1 hx hy hexw heyh hnov
  | remove s ci hs ih =>
    exact remove_component_strong s ci ih

/-- Claim C2, counterexample.  The invariant fails on a reachable
state: after a guarded placement at a negative coordinate the grid
origin shifts, but the paint loop writes through raw array indices, so
the placed tile of component B never reaches the buffer and the
origin-offset read disagrees with its mask. -/
theorem c2_counterexample :
    SolverReachable sBadC2 ∧ ¬ core_invariant sBadC2 := by
  constructor
  · exact SolverReachable.place _ 1 (-1) 0
      (SolverReachable.place _ 0 2 0
        (SolverReachable.init compsC2 60 40 (by decide)) (by decide))
      (by decide)
  · unfold core_invariant mask_grid_agreement no_placed_overlap gridAtWorld
    decide

/-- Claim C2, amended.  The core invariant does hold on every state
reachable through placements that keep the origin pinned at (0,0) and
every coordinate inside the 200 by 200 buffer: there raw indices and
origin-offset reads coincide, and the claimed mask-grid agreement and
pairwise disjointness are maintained by place_component and
remove_component. -/
theorem c2_amended (s : LayoutSolver) (h : SolverReachableNN s) : core_invariant s :=
  strong_to_core s (strong_of_reachableNN s h)

/-- Witness for c2_amended at a concrete in-bounds placement. -/
theorem c2_amended_witness :
    core_invariant (tree_place_component (initial_state compsC2 60 40) 0 2 0).2 :=
  c2_amended _ (SolverReachableNN.place _ 0 2 0
    (SolverReachableNN.init compsC2 60 40 (by decide) (by decide) (by decide) (by decide)
      (by decide))
    (by decide) (by decide) (by decide) (by decide) (by decide))
